import Mathlib

/-!
# Figures: points, triangles, hexagons, octagons and the figure container

A shallow embedding of `include/figures.hpp` and `src/figures.cpp`.

* The template parameter `T` is instantiated only at `double`.  The numeric
  code is embedded twice.
  - In exact arithmetic: the numeric type is any linear ordered field `α`.
    The definitions are generic in `α`, run on `ℚ` and are reasoned about on
    `ℝ`; they state what the formulas of the program compute over the real
    numbers.  `std::sqrt`, `M_PI`, `std::cos` and `std::sin` are parameters of
    the functions that use them; the theorems that need the real ones
    instantiate them with `Real.sqrt`, `Real.pi`, `Real.cos`, `Real.sin`.
  - In `double` arithmetic: the numeric type is `Double`, IEEE 754 binary64
    with rounding to nearest, ties to even, the infinities and NaN.  The
    definitions named `..._double` are the same members computed in that
    arithmetic, with `std::sqrt` correctly rounded, `M_PI` the `double` of its
    literal, and `std::cos`, `std::sin` parameters; they state what the
    program itself returns.  Every operation rounds once, to binary64: no
    fused multiply-add and no wider intermediate format.
* A `std::shared_ptr<T>` stored in the container is a value of the element
  type of the embedded container; the container is generic in that type.
* A member function that mutates `*this` returns the new object; a member
  function that can throw returns `Except Exception _`.
-/

namespace Figures

/-- The two standard exceptions thrown in `figures.cpp`, with their message. -/
inductive Exception where
  | invalid_argument (what : String)
  | out_of_range (what : String)
  deriving DecidableEq, Repr

/-! ## `Array<T>` -/

/-- The class template `Array<T>`: one private member,
`std::vector<std::shared_ptr<T>> data`.  `T` here is the type of the handles. -/
structure Array (T : Type) where
  data : List T
  deriving DecidableEq, Repr

/-- The member `Array<T>::add`: `data.push_back(std::move(elem))`. -/
def Array.add {T : Type} (self : Array T) (elem : T) : Array T :=
  ⟨self.data ++ [elem]⟩

/-- The member `Array<T>::remove`:
`if (index < data.size()) data.erase(data.begin() + index);`. -/
def Array.remove {T : Type} (self : Array T) (index : Nat) : Array T :=
  if index < self.data.length then ⟨self.data.eraseIdx index⟩ else self

/-- The member `Array<T>::size`: `data.size()`. -/
def Array.size {T : Type} (self : Array T) : Nat :=
  self.data.length

/-- The member `Array<T>::get` (not `const`): the handle `data[index]` when
`index < data.size()`, otherwise `std::out_of_range("Index out of range")`.
The second component is the container after the call. -/
def Array.get {T : Type} (self : Array T) (index : Nat) : Except Exception T × Array T :=
  if h : index < self.data.length then
    (Except.ok (self.data.get ⟨index, h⟩), self)
  else
    (Except.error (Exception.out_of_range "Index out of range"), self)

/-! ## `Point<T>` -/

/-- The class template `Point<T>`: public members `T x, y`. -/
structure Point (α : Type) where
  x : α
  y : α
  deriving DecidableEq, Repr

section Numeric

variable {α : Type} [LinearOrderedField α]

/-- The default constructor `Point<T>::Point() : x(0), y(0)`. -/
def Point.Point_default : Point α := ⟨0, 0⟩

/-- The copy constructor `Point<T>::Point(const Point& other) : x(other.x), y(other.y)`. -/
def Point.Point_copy (other : Point α) : Point α := ⟨other.x, other.y⟩

/-- The member `Point<T>::operator+`. -/
def Point.operator_add (self other : Point α) : Point α :=
  ⟨self.x + other.x, self.y + other.y⟩

/-- The member `Point<T>::operator-`. -/
def Point.operator_sub (self other : Point α) : Point α :=
  ⟨self.x - other.x, self.y - other.y⟩

/-- The member `Point<T>::operator*` (by a scalar). -/
def Point.operator_mul (self : Point α) (scalar : α) : Point α :=
  ⟨self.x * scalar, self.y * scalar⟩

/-- The member `Point<T>::operator/`: throws
`std::invalid_argument("Division by zero")` when `scalar == 0`. -/
def Point.operator_div (self : Point α) (scalar : α) : Except Exception (Point α) :=
  if scalar = 0 then Except.error (Exception.invalid_argument "Division by zero")
  else Except.ok ⟨self.x / scalar, self.y / scalar⟩

/-- The member `Point<T>::operator==`: `x == other.x && y == other.y`. -/
def Point.operator_eq (self other : Point α) : Bool :=
  decide (self.x = other.x) && decide (self.y = other.y)

/-- The member `Point<T>::operator!=`: `!(*this == other)`. -/
def Point.operator_ne (self other : Point α) : Bool :=
  !(self.operator_eq other)

/-- The member `Point<T>::distance`: `std::sqrt(dx * dx + dy * dy)`. -/
def Point.distance (sqrt : α → α) (self other : Point α) : α :=
  let dx := self.x - other.x
  let dy := self.y - other.y
  sqrt (dx * dx + dy * dy)

/-! ## `Triangle<T>` -/

/-- The class template `Triangle<T>`: one private member
`std::array<std::shared_ptr<Point<T>>, 3> vertices`; every constructor and
every assignment allocates the three points afresh, so the state of a triangle
is the three points. -/
structure Triangle (α : Type) where
  vertices : Fin 3 → Point α

/-- The default constructor `Triangle<T>::Triangle()`: every vertex is
`Point<T>(0, 0)`. -/
def Triangle.Triangle_default : Triangle α := ⟨fun _ => ⟨0, 0⟩⟩

/-- The constructor `Triangle<T>::Triangle(const std::array<Point<T>, 3>& points)`. -/
def Triangle.Triangle_points (points : Fin 3 → Point α) : Triangle α :=
  ⟨fun i => Point.Point_copy (points i)⟩

/-- The copy constructor `Triangle<T>::Triangle(const Triangle& other)`: a
fresh copy of each of the three points. -/
def Triangle.Triangle_copy (other : Triangle α) : Triangle α :=
  ⟨fun i => Point.Point_copy (other.vertices i)⟩

/-- The member `Triangle<T>::geometricCenter`. -/
def Triangle.geometricCenter (self : Triangle α) : Point α :=
  let centerX := ((self.vertices 0).x + (self.vertices 1).x + (self.vertices 2).x) / 3
  let centerY := ((self.vertices 0).y + (self.vertices 1).y + (self.vertices 2).y) / 3
  ⟨centerX, centerY⟩

/-- The member `Triangle<T>::area`:
`std::abs((x1*(y2-y3) + x2*(y3-y1) + x3*(y1-y2)) / 2.0)`. -/
def Triangle.area (self : Triangle α) : α :=
  let x1 := (self.vertices 0).x
  let y1 := (self.vertices 0).y
  let x2 := (self.vertices 1).x
  let y2 := (self.vertices 1).y
  let x3 := (self.vertices 2).x
  let y3 := (self.vertices 2).y
  |(x1 * (y2 - y3) + x2 * (y3 - y1) + x3 * (y1 - y2)) / 2|

/-- The member `Triangle<T>::isRegular`: some two of the three side lengths
differ by less than `epsilon = 1e-6`. -/
def Triangle.isRegular (sqrt : α → α) (self : Triangle α) : Bool :=
  let epsilon : α := 1e-6
  let side1 := (self.vertices 0).distance sqrt (self.vertices 1)
  let side2 := (self.vertices 1).distance sqrt (self.vertices 2)
  let side3 := (self.vertices 2).distance sqrt (self.vertices 0)
  decide (|side1 - side2| < epsilon) ||
    (decide (|side2 - side3| < epsilon) ||
      decide (|side3 - side1| < epsilon))

/-! ## `Hexagon<T>` and `Octagon<T>` -/

/-- The class template `Hexagon<T>`: private members `Point<T> center` and
`T radius`. -/
structure Hexagon (α : Type) where
  center : Point α
  radius : α
  deriving DecidableEq, Repr

/-- The default constructor `Hexagon<T>::Hexagon() : center(0, 0), radius(0)`. -/
def Hexagon.Hexagon_default : Hexagon α := ⟨⟨0, 0⟩, 0⟩

/-- The member `Hexagon<T>::geometricCenter`. -/
def Hexagon.geometricCenter (self : Hexagon α) : Point α :=
  ⟨self.center.x, self.center.y⟩

/-- The member `Hexagon<T>::area`:
`(3 * std::sqrt(3.0) / 2.0) * radius * radius`. -/
def Hexagon.area (sqrt : α → α) (self : Hexagon α) : α :=
  (3 * sqrt 3 / 2) * self.radius * self.radius

/-- The member `Hexagon<T>::isRegular`: `return true`. -/
def Hexagon.isRegular (_self : Hexagon α) : Bool := true

/-- The class template `Octagon<T>`: private members `Point<T> center` and
`T radius`. -/
structure Octagon (α : Type) where
  center : Point α
  radius : α
  deriving DecidableEq, Repr

/-- The default constructor `Octagon<T>::Octagon() : center(0, 0), radius(0)`. -/
def Octagon.Octagon_default : Octagon α := ⟨⟨0, 0⟩, 0⟩

/-- The member `Octagon<T>::geometricCenter`. -/
def Octagon.geometricCenter (self : Octagon α) : Point α :=
  ⟨self.center.x, self.center.y⟩

/-- The member `Octagon<T>::area`:
`side = radius * std::sqrt(2 - std::sqrt(2))`, then
`2 * (1 + std::sqrt(2)) * side * side`. -/
def Octagon.area (sqrt : α → α) (self : Octagon α) : α :=
  let side := self.radius * sqrt (2 - sqrt 2)
  2 * (1 + sqrt 2) * side * side

/-- The member `Octagon<T>::isRegular`: `return true`. -/
def Octagon.isRegular (_self : Octagon α) : Bool := true

/-! ## `Figure<T>` and the virtual members -/

/-- The abstract class `Figure<T>` with its three derived classes: an object
seen through a `Figure<T>&` is one of the three. -/
inductive Figure (α : Type) where
  | triangle (t : Triangle α)
  | hexagon (h : Hexagon α)
  | octagon (o : Octagon α)

/-- The member `Triangle<T>::operator==(const Figure<T>& other)`: `false` when
the `dynamic_cast` to `Triangle` fails, otherwise `false` at the first index
`i` with `*vertices[i] != *otherTriangle->vertices[i]`, otherwise `true`. -/
def Triangle.operator_eq (self : Triangle α) (other : Figure α) : Bool :=
  match other with
  | Figure.triangle otherTriangle =>
    if (self.vertices 0).operator_ne (otherTriangle.vertices 0) then false
    else if (self.vertices 1).operator_ne (otherTriangle.vertices 1) then false
    else if (self.vertices 2).operator_ne (otherTriangle.vertices 2) then false
    else true
  | _ => false

/-- The member `Hexagon<T>::operator==(const Figure<T>& other)`. -/
def Hexagon.operator_eq (self : Hexagon α) (other : Figure α) : Bool :=
  match other with
  | Figure.hexagon otherHexagon =>
    self.center.operator_eq otherHexagon.center && decide (self.radius = otherHexagon.radius)
  | _ => false

/-- The member `Octagon<T>::operator==(const Figure<T>& other)`. -/
def Octagon.operator_eq (self : Octagon α) (other : Figure α) : Bool :=
  match other with
  | Figure.octagon otherOctagon =>
    self.center.operator_eq otherOctagon.center && decide (self.radius = otherOctagon.radius)
  | _ => false

/-- The virtual member `Figure<T>::area`, dispatched on the dynamic type. -/
def Figure.area (sqrt : α → α) (self : Figure α) : α :=
  match self with
  | Figure.triangle t => t.area
  | Figure.hexagon h => h.area sqrt
  | Figure.octagon o => o.area sqrt

/-- The virtual member `Figure<T>::isRegular`, dispatched on the dynamic type. -/
def Figure.isRegular (sqrt : α → α) (self : Figure α) : Bool :=
  match self with
  | Figure.triangle t => t.isRegular sqrt
  | Figure.hexagon h => h.isRegular
  | Figure.octagon o => o.isRegular

/-- The virtual member `Figure<T>::operator==`, dispatched on the dynamic type
of the left operand. -/
def Figure.operator_eq (self other : Figure α) : Bool :=
  match self with
  | Figure.triangle t => t.operator_eq other
  | Figure.hexagon h => h.operator_eq other
  | Figure.octagon o => o.operator_eq other

/-- One piece of the character sequence of a stream.  `number v` is the text
of the `double` (of the `T`) `v`: what `os << v` writes and what `is >> x`
converts to `v`.  `text s` is the string literal `s` written by `os << s`; on
input it is a run of characters that is not the beginning of a number. -/
inductive Item (α : Type) where
  | text (s : String)
  | number (v : α)
  deriving DecidableEq, Repr

/-- A `std::ostream`: the items written to it so far, in order. -/
abbrev OStream (α : Type) := List (Item α)

/-- A `std::istream`: the items not yet read, and the state flag `failbit`. -/
structure IStream (α : Type) where
  input : List (Item α)
  failbit : Bool
  deriving DecidableEq, Repr

/-- The extraction `is >> x` for an `x` of type `T`.  With `failbit` set the
stream does nothing and `x` keeps its value; at the end of the input `failbit`
is set and `x` keeps its value; a number is converted and stored in `x`; on
characters that are no number `failbit` is set and `0` is stored in `x`. -/
def IStream.extract (is : IStream α) (x : α) : α × IStream α :=
  if is.failbit then (x, is)
  else
    match is.input with
    | [] => (x, ⟨[], true⟩)
    | Item.number v :: rest => (v, ⟨rest, false⟩)
    | Item.text s :: rest => (0, ⟨Item.text s :: rest, true⟩)

/-- The friend `operator<<(std::ostream&, const Point<U>&)`:
`os << "(" << p.x << ", " << p.y << ")"`. -/
def Point.operator_shl (os : OStream α) (p : Point α) : OStream α :=
  os ++ [Item.text "(", Item.number p.x, Item.text ", ", Item.number p.y, Item.text ")"]

/-! ## `calculateVertices`, `printVertices`, `readVertices` -/

/-- The member `Hexagon<T>::calculateVertices`: a default-constructed
`std::array<Point<T>, 6>`, whose entry `i` is then set, for `i = 0 .. 5`, to
the point at the angle `2 * M_PI * i / 6`.  `M_PI`, `cos`, `sin` are those of
`<cmath>`. -/
def Hexagon.calculateVertices (M_PI : α) (cos sin : α → α) (self : Hexagon α) :
    List (Point α) :=
  (List.range 6).foldl
    (fun (vertices : List (Point α)) (i : Nat) =>
      let angle := 2 * M_PI * (Nat.cast i : α) / 6
      vertices.set i
        ⟨self.center.x + self.radius * cos angle, self.center.y + self.radius * sin angle⟩)
    (List.replicate 6 Point.Point_default)

/-- The member `Octagon<T>::calculateVertices`: as for the hexagon, with `8`
entries and the angles `2 * M_PI * i / 8`. -/
def Octagon.calculateVertices (M_PI : α) (cos sin : α → α) (self : Octagon α) :
    List (Point α) :=
  (List.range 8).foldl
    (fun (vertices : List (Point α)) (i : Nat) =>
      let angle := 2 * M_PI * (Nat.cast i : α) / 8
      vertices.set i
        ⟨self.center.x + self.radius * cos angle, self.center.y + self.radius * sin angle⟩)
    (List.replicate 8 Point.Point_default)

/-- The loop `for (const auto& vertex : vertices)
os << "(" << vertex.x << ", " << vertex.y << ") ";` shared by the three
`printVertices`. -/
def printVertexList (os : OStream α) (vertices : List (Point α)) : OStream α :=
  vertices.foldl
    (fun os vertex =>
      os ++ [Item.text "(", Item.number vertex.x, Item.text ", ", Item.number vertex.y,
        Item.text ") "])
    os

/-- The member `Triangle<T>::printVertices`. -/
def Triangle.printVertices (self : Triangle α) (os : OStream α) : OStream α :=
  printVertexList (os ++ [Item.text "Triangle vertices: "])
    [self.vertices 0, self.vertices 1, self.vertices 2]

/-- The member `Hexagon<T>::printVertices`. -/
def Hexagon.printVertices (M_PI : α) (cos sin : α → α) (self : Hexagon α) (os : OStream α) :
    OStream α :=
  let vertices := self.calculateVertices M_PI cos sin
  let os := printVertexList (os ++ [Item.text "Hexagon vertices: "]) vertices
  let os := Point.operator_shl (os ++ [Item.text "(Center: "]) self.center
  os ++ [Item.text ", Radius: ", Item.number self.radius, Item.text ")"]

/-- The member `Octagon<T>::printVertices`. -/
def Octagon.printVertices (M_PI : α) (cos sin : α → α) (self : Octagon α) (os : OStream α) :
    OStream α :=
  let vertices := self.calculateVertices M_PI cos sin
  let os := printVertexList (os ++ [Item.text "Octagon vertices: "]) vertices
  let os := Point.operator_shl (os ++ [Item.text "(Center: "]) self.center
  os ++ [Item.text ", Radius: ", Item.number self.radius, Item.text ")"]

/-- The member `Triangle<T>::readVertices`: for `i = 0, 1, 2` the locals
`T x, y` are declared without initialiser, `is >> x >> y` is run and
`vertices[i]` is replaced by a new `Point<T>(x, y)`.  `uninit i` holds the
values the two uninitialised locals of round `i` have. -/
def Triangle.readVertices (self : Triangle α) (is : IStream α) (uninit : Fin 3 → α × α) :
    Triangle α × IStream α :=
  let (x, is) := is.extract (uninit 0).1
  let (y, is) := is.extract (uninit 0).2
  let vertices := Function.update self.vertices 0 ⟨x, y⟩
  let (x, is) := is.extract (uninit 1).1
  let (y, is) := is.extract (uninit 1).2
  let vertices := Function.update vertices 1 ⟨x, y⟩
  let (x, is) := is.extract (uninit 2).1
  let (y, is) := is.extract (uninit 2).2
  let vertices := Function.update vertices 2 ⟨x, y⟩
  (⟨vertices⟩, is)

/-- The member `Hexagon<T>::readVertices`: `T x, y, r; is >> x >> y >> r;
center = Point<T>(x, y); radius = r;`.  `x0 y0 r0` are the values the three
uninitialised locals have. -/
def Hexagon.readVertices (_self : Hexagon α) (is : IStream α) (x0 y0 r0 : α) :
    Hexagon α × IStream α :=
  let (x, is) := is.extract x0
  let (y, is) := is.extract y0
  let (r, is) := is.extract r0
  (⟨⟨x, y⟩, r⟩, is)

/-- The member `Octagon<T>::readVertices`: `T x, y, r; is >> x >> y >> r;
center = Point<T>(x, y); radius = r;`.  `x0 y0 r0` are the values the three
uninitialised locals have. -/
def Octagon.readVertices (_self : Octagon α) (is : IStream α) (x0 y0 r0 : α) :
    Octagon α × IStream α :=
  let (x, is) := is.extract x0
  let (y, is) := is.extract y0
  let (r, is) := is.extract r0
  (⟨⟨x, y⟩, r⟩, is)

/-- The vertex `i` of the regular `n`-gon of the specification:
`vertex[i] = center + radius * (cos(2πi/n), sin(2πi/n))`. -/
def regularVertex (M_PI : α) (cos sin : α → α) (center : Point α) (radius : α) (n i : Nat) :
    Point α :=
  ⟨center.x + radius * cos (2 * M_PI * (Nat.cast i : α) / (Nat.cast n : α)),
    center.y + radius * sin (2 * M_PI * (Nat.cast i : α) / (Nat.cast n : α))⟩

/-! ## The cases 1, 2, 3 of the `switch` in `main` -/

/-- The body of `case 1` in `main` on the state `(figures, cin)`: a
default-constructed triangle reads its vertices from `cin` and is added when
its `isRegular()` holds.  The messages written to `cout` are left out. -/
def main_case1 (sqrt : α → α) (figures : Array (Figure α)) (cin : IStream α)
    (uninit : Fin 3 → α × α) : Array (Figure α) × IStream α :=
  let triangle : Triangle α := Triangle.Triangle_default
  let (triangle, cin) := triangle.readVertices cin uninit
  if triangle.isRegular sqrt then
    (figures.add (Figure.triangle triangle), cin)
  else
    (figures, cin)

/-- The body of `case 2` in `main` on the state `(figures, cin)`: a
default-constructed hexagon reads centre and radius from `cin` and is added.
The messages written to `cout` are left out. -/
def main_case2 (figures : Array (Figure α)) (cin : IStream α) (x0 y0 r0 : α) :
    Array (Figure α) × IStream α :=
  let hexagon : Hexagon α := Hexagon.Hexagon_default
  let (hexagon, cin) := hexagon.readVertices cin x0 y0 r0
  (figures.add (Figure.hexagon hexagon), cin)

/-- The body of `case 3` in `main` on the state `(figures, cin)`: a
default-constructed octagon reads centre and radius from `cin` and is added.
The messages written to `cout` are left out. -/
def main_case3 (figures : Array (Figure α)) (cin : IStream α) (x0 y0 r0 : α) :
    Array (Figure α) × IStream α :=
  let octagon : Octagon α := Octagon.Octagon_default
  let (octagon, cin) := octagon.readVertices cin x0 y0 r0
  (figures.add (Figure.octagon octagon), cin)

/-! ## `Triangle<T>` with its vertices in the free store -/

/-- The free store of the `Point<T>` objects made by
`std::make_shared<Point<T>>`: the object at address `a` is `cells[a]`.  A
`shared_ptr` releases an object only when no pointer to it is left, so
releasing is not part of the embedding. -/
structure Heap (α : Type) where
  cells : List (Point α)
  deriving DecidableEq, Repr

/-- The call `std::make_shared<Point<T>>(p)`: a new object at a new address. -/
def Heap.make_shared (heap : Heap α) (p : Point α) : Nat × Heap α :=
  (heap.cells.length, ⟨heap.cells ++ [p]⟩)

/-- The dereference `*ptr` of a `shared_ptr<Point<T>>`; `none` when the
pointer holds no object. -/
def Heap.deref (heap : Heap α) (ptr : Nat) : Option (Point α) :=
  heap.cells[ptr]?

/-- The object layout of `Triangle<T>`: the member
`std::array<std::shared_ptr<Point<T>>, 3> vertices` as three addresses. -/
structure TriangleRep where
  vertices : Fin 3 → Nat

/-- The copy constructor `Triangle<T>::Triangle(const Triangle& other)` on the
free store: `vertices[i] = std::make_shared<Point<T>>(*other.vertices[i])`
for `i = 0, 1, 2`; `none` when some pointer of `other` holds no object. -/
def TriangleRep.Triangle_copy (other : TriangleRep) (heap : Heap α) :
    Option (TriangleRep × Heap α) :=
  match heap.deref (other.vertices 0) with
  | none => none
  | some p0 =>
    let (a0, heap) := heap.make_shared (Point.Point_copy p0)
    match heap.deref (other.vertices 1) with
    | none => none
    | some p1 =>
      let (a1, heap) := heap.make_shared (Point.Point_copy p1)
      match heap.deref (other.vertices 2) with
      | none => none
      | some p2 =>
        let (a2, heap) := heap.make_shared (Point.Point_copy p2)
        some (⟨![a0, a1, a2]⟩, heap)

/-- The member `Triangle<T>::readVertices` on the free store: round `i` runs
`is >> x >> y` and `vertices[i] = std::make_shared<Point<T>>(x, y)`. -/
def TriangleRep.readVertices (self : TriangleRep) (is : IStream α)
    (uninit : Fin 3 → α × α) (heap : Heap α) : TriangleRep × IStream α × Heap α :=
  let (x, is) := is.extract (uninit 0).1
  let (y, is) := is.extract (uninit 0).2
  let (a, heap) := heap.make_shared ⟨x, y⟩
  let vertices := Function.update self.vertices 0 a
  let (x, is) := is.extract (uninit 1).1
  let (y, is) := is.extract (uninit 1).2
  let (a, heap) := heap.make_shared ⟨x, y⟩
  let vertices := Function.update vertices 1 a
  let (x, is) := is.extract (uninit 2).1
  let (y, is) := is.extract (uninit 2).2
  let (a, heap) := heap.make_shared ⟨x, y⟩
  let vertices := Function.update vertices 2 a
  (⟨vertices⟩, is, heap)

/-! ## The figure objects in the free store -/

/-- The virtual member `Figure<T>::readVertices`, dispatched on the dynamic
type.  `uninit` holds the values of the uninitialised locals: the six of the
triangle, and for the hexagon and the octagon `x`, `y`, `r` in the first three
places. -/
def Figure.readVertices (self : Figure α) (is : IStream α) (uninit : Fin 3 → α × α) :
    Figure α × IStream α :=
  match self with
  | Figure.triangle t =>
    let (t, is) := t.readVertices is uninit
    (Figure.triangle t, is)
  | Figure.hexagon h =>
    let (h, is) := h.readVertices is (uninit 0).1 (uninit 0).2 (uninit 1).1
    (Figure.hexagon h, is)
  | Figure.octagon o =>
    let (o, is) := o.readVertices is (uninit 0).1 (uninit 0).2 (uninit 1).1
    (Figure.octagon o, is)

/-- An object of one of the three classes as it lies in the free store: a
triangle holds three pointers, a hexagon and an octagon hold their centre and
radius by value. -/
inductive FigureObject (α : Type) where
  | triangle (t : TriangleRep)
  | hexagon (h : Hexagon α)
  | octagon (o : Octagon α)

/-- The free store: the `Point<T>` objects and the figure objects made by
`std::make_shared`.  A `std::shared_ptr<Figure<T>>` is the address of a figure
object, its index in `figures`. -/
structure Store (α : Type) where
  points : Heap α
  figures : List (FigureObject α)

/-- The call `ptr->readVertices(is)`: the object that `ptr` points to reads
its vertices and is changed in place.  Without an object at `ptr` nothing is
done. -/
def Store.readVertices (store : Store α) (ptr : Nat) (is : IStream α)
    (uninit : Fin 3 → α × α) : Store α × IStream α :=
  match store.figures[ptr]? with
  | none => (store, is)
  | some (FigureObject.triangle t) =>
    let (t, is, points) := t.readVertices is uninit store.points
    (⟨points, store.figures.set ptr (FigureObject.triangle t)⟩, is)
  | some (FigureObject.hexagon h) =>
    let (h, is) := h.readVertices is (uninit 0).1 (uninit 0).2 (uninit 1).1
    (⟨store.points, store.figures.set ptr (FigureObject.hexagon h)⟩, is)
  | some (FigureObject.octagon o) =>
    let (o, is) := o.readVertices is (uninit 0).1 (uninit 0).2 (uninit 1).1
    (⟨store.points, store.figures.set ptr (FigureObject.octagon o)⟩, is)

end Numeric

/-! ## The type `double`: IEEE 754 binary64, round to nearest, ties to even -/

/-- The loop of `bitLength`. -/
def bitLengthLoop : Nat → Nat → Nat → Nat
  | 0, _, k => k
  | fuel + 1, n, k => if n = 0 then k else bitLengthLoop fuel (n / 2) (k + 1)

/-- The number of binary digits of `n`: the least `k` with `n < 2 ^ k`. -/
def bitLength (n : Nat) : Nat := bitLengthLoop n n 0

/-- The loop of `isqrt`: Newton steps from above, as long as they decrease. -/
def isqrtLoop : Nat → Nat → Nat → Nat
  | 0, _, s => s
  | fuel + 1, n, s => if (s + n / s) / 2 < s then isqrtLoop fuel n ((s + n / s) / 2) else s

/-- The integer square root of `n`: the greatest `s` with `s * s ≤ n`. -/
def isqrt (n : Nat) : Nat := isqrtLoop n n n

/-- A value of the type `double`.  `finite m e` is the number
`m * 2 ^ (e - 1074)`; every operation returns it with `|m| < 2 ^ 53`,
`e ≤ 2045`, and `2 ^ 52 ≤ |m|` unless `e = 0`.  The sign of a zero is not
represented: `+`, `-`, `*`, `std::sqrt`, `std::abs`, the comparisons, and `/`
by a number other than zero give the same number, up to the sign of a zero,
for `-0.0` as for `0.0`. -/
inductive Double where
  | finite (m : Int) (e : Nat)
  | inf (negative : Bool)
  | nan
  deriving DecidableEq, Repr

/-- Rounding of a magnitude to 53 binary digits, to nearest, ties to the even
significand: for `N > 0` the pair `(q, e)` with `q * 2 ^ e` nearest to `N / d`
among the numbers with `q < 2 ^ 53`, and `2 ^ 52 ≤ q` unless `e = 0`. -/
def Double.roundMagnitude (N d : Nat) : Nat × Nat :=
  let t := bitLength N - bitLength d - 53
  let e := if N / (d * 2 ^ t) < 2 ^ 53 then t else t + 1
  let q := N / (d * 2 ^ e)
  let r := N % (d * 2 ^ e)
  let q := if d * 2 ^ e < 2 * r ∨ (2 * r = d * 2 ^ e ∧ q % 2 = 1) then q + 1 else q
  if q = 2 ^ 53 then (2 ^ 52, e + 1) else (q, e)

/-- Rounding to the nearest `double`, ties to the even significand: the
`double` nearest to `± (N / d) * 2 ^ (-1074)`, infinite when that is beyond
the largest finite `double` by half a unit in the last place or more. -/
def Double.round (negative : Bool) (N d : Nat) : Double :=
  if N = 0 then Double.finite 0 0
  else if 2045 < (Double.roundMagnitude N d).2 then Double.inf negative
  else
    Double.finite
      (if negative then -((Double.roundMagnitude N d).1 : Int)
        else ((Double.roundMagnitude N d).1 : Int))
      (Double.roundMagnitude N d).2

/-- The unary minus of `double`. -/
def Double.neg : Double → Double
  | Double.finite m e => Double.finite (-m) e
  | Double.inf s => Double.inf (!s)
  | Double.nan => Double.nan

/-- The function `std::abs` on `double`. -/
def Double.abs : Double → Double
  | Double.finite m e => Double.finite (Int.ofNat m.natAbs) e
  | Double.inf _ => Double.inf false
  | Double.nan => Double.nan

/-- The addition of `double`: the exact sum, rounded. -/
def Double.add : Double → Double → Double
  | Double.finite m1 e1, Double.finite m2 e2 =>
    let e0 := min e1 e2
    let s : Int := m1 * 2 ^ (e1 - e0) + m2 * 2 ^ (e2 - e0)
    Double.round (decide (s < 0)) (s.natAbs * 2 ^ e0) 1
  | Double.finite _ _, Double.inf s => Double.inf s
  | Double.inf s, Double.finite _ _ => Double.inf s
  | Double.inf s1, Double.inf s2 => if s1 = s2 then Double.inf s1 else Double.nan
  | _, _ => Double.nan

/-- The subtraction of `double`. -/
def Double.sub (a b : Double) : Double := Double.add a (Double.neg b)

/-- The multiplication of `double`: the exact product, rounded. -/
def Double.mul : Double → Double → Double
  | Double.finite m1 e1, Double.finite m2 e2 =>
    Double.round (decide (m1 * m2 < 0)) ((m1 * m2).natAbs * 2 ^ (e1 + e2)) (2 ^ 1074)
  | Double.finite m _, Double.inf s =>
    if m = 0 then Double.nan else Double.inf (xor (decide (m < 0)) s)
  | Double.inf s, Double.finite m _ =>
    if m = 0 then Double.nan else Double.inf (xor s (decide (m < 0)))
  | Double.inf s1, Double.inf s2 => Double.inf (xor s1 s2)
  | _, _ => Double.nan

/-- The division of `double`: the exact quotient, rounded.  A nonzero number
divided by zero is given the sign of the dividend, the result for the divisor
`+0.0`; the members embedded here divide by `2.0`, `6`, `8`, and by a scalar
that `operator/` has compared with zero. -/
def Double.div : Double → Double → Double
  | Double.finite m1 e1, Double.finite m2 e2 =>
    if m2 = 0 then
      if m1 = 0 then Double.nan else Double.inf (decide (m1 < 0))
    else
      Double.round (xor (decide (m1 < 0)) (decide (m2 < 0)))
        (m1.natAbs * 2 ^ (e1 + 1074)) (m2.natAbs * 2 ^ e2)
  | Double.finite _ _, Double.inf _ => Double.finite 0 0
  | Double.inf s, Double.finite m _ => Double.inf (xor s (decide (m < 0)))
  | _, _ => Double.nan

/-- The function `std::sqrt` on `double`: the exact square root, rounded.  The
root of `m * 2 ^ (e - 1074)`, times `2 ^ 1074`, is the root of
`X = m * 2 ^ (e + 1074)`; it lies at `isqrt X` or strictly between `isqrt X`
and `isqrt X + 1`, and no rounding boundary lies strictly between these. -/
def Double.sqrt : Double → Double
  | Double.finite m e =>
    if m < 0 then Double.nan
    else
      let X := m.natAbs * 2 ^ (e + 1074)
      let s := isqrt X
      Double.round false (if s * s = X then 2 * s else 2 * s + 1) 2
  | Double.inf s => if s then Double.nan else Double.inf false
  | Double.nan => Double.nan

/-- The comparison `<` of `double`: false when an operand is NaN. -/
def Double.lt : Double → Double → Bool
  | Double.finite m1 e1, Double.finite m2 e2 => decide (m1 * 2 ^ e1 < m2 * 2 ^ e2)
  | Double.finite _ _, Double.inf s => !s
  | Double.inf s, Double.finite _ _ => s
  | Double.inf s1, Double.inf s2 => s1 && !s2
  | _, _ => false

/-- The comparison `<=` of `double`: false when an operand is NaN. -/
def Double.le : Double → Double → Bool
  | Double.finite m1 e1, Double.finite m2 e2 => decide (m1 * 2 ^ e1 ≤ m2 * 2 ^ e2)
  | Double.finite _ _, Double.inf s => !s
  | Double.inf s, Double.finite _ _ => s
  | Double.inf s1, Double.inf s2 => s1 || !s2
  | _, _ => false

/-- The comparison `==` of `double`: false when an operand is NaN. -/
def Double.eq : Double → Double → Bool
  | Double.finite m1 e1, Double.finite m2 e2 => decide (m1 * 2 ^ e1 = m2 * 2 ^ e2)
  | Double.inf s1, Double.inf s2 => s1 == s2
  | _, _ => false

/-- The `double` of a decimal literal, and of a number read by `>>`:
`m * 10 ^ (-k)` when `exponentNegative` and else `m * 10 ^ k`, rounded. -/
def Double.ofDecimal (m : Nat) (exponentNegative : Bool) (k : Nat) : Double :=
  if exponentNegative then Double.round false (m * 2 ^ 1074) (10 ^ k)
  else Double.round false (m * 10 ^ k * 2 ^ 1074) 1

/-- The rational number that a finite `double` is; `0` for the infinities and
NaN. -/
def Double.toRat : Double → ℚ
  | Double.finite m e => (m : ℚ) * 2 ^ e / 2 ^ 1074
  | Double.inf _ => 0
  | Double.nan => 0

/-- The function `std::isnormal`: finite, not zero and not subnormal. -/
def Double.isNormal : Double → Bool
  | Double.finite m _ => decide (2 ^ 52 ≤ m.natAbs)
  | Double.inf _ => false
  | Double.nan => false

instance : Add Double := ⟨Double.add⟩

instance : Sub Double := ⟨Double.sub⟩

instance : Mul Double := ⟨Double.mul⟩

instance : Div Double := ⟨Double.div⟩

instance : Neg Double := ⟨Double.neg⟩

instance (n : Nat) : OfNat Double n := ⟨Double.ofDecimal n false 0⟩

instance : OfScientific Double := ⟨fun m s k => Double.ofDecimal m s k⟩

/-- The constant `M_PI` of `<cmath>`: `3.14159265358979323846`. -/
def Double.M_PI : Double := 3.14159265358979323846

/-! ## The members that compute with `double`, in `double` arithmetic -/

/-- The member `Point<double>::operator*` in `double` arithmetic. -/
def Point.operator_mul_double (self : Point Double) (scalar : Double) : Point Double :=
  ⟨self.x * scalar, self.y * scalar⟩

/-- The member `Point<double>::operator/` in `double` arithmetic: throws
`std::invalid_argument("Division by zero")` when `scalar == 0`. -/
def Point.operator_div_double (self : Point Double) (scalar : Double) :
    Except Exception (Point Double) :=
  if Double.eq scalar 0 then Except.error (Exception.invalid_argument "Division by zero")
  else Except.ok ⟨self.x / scalar, self.y / scalar⟩

/-- The member `Point<double>::operator==` in `double` arithmetic. -/
def Point.operator_eq_double (self other : Point Double) : Bool :=
  Double.eq self.x other.x && Double.eq self.y other.y

/-- The member `Point<double>::distance` in `double` arithmetic:
`std::sqrt(dx * dx + dy * dy)`. -/
def Point.distance_double (self other : Point Double) : Double :=
  let dx := self.x - other.x
  let dy := self.y - other.y
  Double.sqrt (dx * dx + dy * dy)

/-- The member `Triangle<double>::area` in `double` arithmetic:
`std::abs((x1*(y2-y3) + x2*(y3-y1) + x3*(y1-y2)) / 2.0)`. -/
def Triangle.area_double (self : Triangle Double) : Double :=
  let x1 := (self.vertices 0).x
  let y1 := (self.vertices 0).y
  let x2 := (self.vertices 1).x
  let y2 := (self.vertices 1).y
  let x3 := (self.vertices 2).x
  let y3 := (self.vertices 2).y
  Double.abs ((x1 * (y2 - y3) + x2 * (y3 - y1) + x3 * (y1 - y2)) / 2.0)

/-- The member `Triangle<double>::isRegular` in `double` arithmetic, with
`epsilon` the `double` `1e-6`. -/
def Triangle.isRegular_double (self : Triangle Double) : Bool :=
  let epsilon : Double := 1e-6
  let side1 := (self.vertices 0).distance_double (self.vertices 1)
  let side2 := (self.vertices 1).distance_double (self.vertices 2)
  let side3 := (self.vertices 2).distance_double (self.vertices 0)
  Double.lt (Double.abs (side1 - side2)) epsilon ||
    (Double.lt (Double.abs (side2 - side3)) epsilon ||
      Double.lt (Double.abs (side3 - side1)) epsilon)

/-- The member `Hexagon<double>::area` in `double` arithmetic:
`(3 * std::sqrt(3.0) / 2.0) * radius * radius`. -/
def Hexagon.area_double (self : Hexagon Double) : Double :=
  (3 * Double.sqrt 3.0 / 2.0) * self.radius * self.radius

/-- The member `Octagon<double>::area` in `double` arithmetic:
`side = radius * std::sqrt(2 - std::sqrt(2))`, then
`2 * (1 + std::sqrt(2)) * side * side`. -/
def Octagon.area_double (self : Octagon Double) : Double :=
  let side := self.radius * Double.sqrt (2 - Double.sqrt 2)
  2 * (1 + Double.sqrt 2) * side * side

/-- The virtual member `Figure<double>::area` in `double` arithmetic,
dispatched on the dynamic type. -/
def Figure.area_double (self : Figure Double) : Double :=
  match self with
  | Figure.triangle t => t.area_double
  | Figure.hexagon h => h.area_double
  | Figure.octagon o => o.area_double

/-- The member `Hexagon<double>::calculateVertices` in `double` arithmetic;
`cos` and `sin` are `std::cos` and `std::sin`. -/
def Hexagon.calculateVertices_double (cos sin : Double → Double) (self : Hexagon Double) :
    List (Point Double) :=
  (List.range 6).foldl
    (fun (vertices : List (Point Double)) (i : Nat) =>
      let angle := 2 * Double.M_PI * Double.ofDecimal i false 0 / 6
      vertices.set i
        ⟨self.center.x + self.radius * cos angle, self.center.y + self.radius * sin angle⟩)
    (List.replicate 6 ⟨0, 0⟩)

/-- The member `Octagon<double>::calculateVertices` in `double` arithmetic;
`cos` and `sin` are `std::cos` and `std::sin`. -/
def Octagon.calculateVertices_double (cos sin : Double → Double) (self : Octagon Double) :
    List (Point Double) :=
  (List.range 8).foldl
    (fun (vertices : List (Point Double)) (i : Nat) =>
      let angle := 2 * Double.M_PI * Double.ofDecimal i false 0 / 8
      vertices.set i
        ⟨self.center.x + self.radius * cos angle, self.center.y + self.radius * sin angle⟩)
    (List.replicate 8 ⟨0, 0⟩)

/-! ## Lemmas on `Array<T>` -/

theorem Array.get_fst_of_lt {T : Type} (c : Array T) (i : Nat) (h : i < c.data.length) :
    (c.get i).1 = Except.ok (c.data.get ⟨i, h⟩) := by
  simp [Array.get, h]

theorem Array.get_fst_of_ge {T : Type} (c : Array T) (i : Nat) (h : c.data.length ≤ i) :
    (c.get i).1 = Except.error (Exception.out_of_range "Index out of range") := by
  simp [Array.get, Nat.not_lt.mpr h]

theorem Array.get_snd {T : Type} (c : Array T) (i : Nat) : (c.get i).2 = c := by
  unfold Array.get
  split <;> rfl

/-- The result of `get` is determined by the optional element `data[i]?`. -/
theorem Array.get_fst_eq_of_getElem? {T : Type} (c d : Array T) (i j : Nat)
    (h : c.data[i]? = d.data[j]?) : (c.get i).1 = (d.get j).1 := by
  by_cases hi : i < c.data.length
  · have hj : j < d.data.length := by
      by_contra hj
      rw [List.getElem?_eq_getElem hi, List.getElem?_eq_none (Nat.le_of_not_lt hj)] at h
      exact Option.noConfusion h
    rw [Array.get_fst_of_lt c i hi, Array.get_fst_of_lt d j hj]
    rw [List.getElem?_eq_getElem hi, List.getElem?_eq_getElem hj] at h
    simpa using h
  · have hj : ¬ j < d.data.length := by
      intro hj
      rw [List.getElem?_eq_none (Nat.le_of_not_lt hi), List.getElem?_eq_getElem hj] at h
      exact Option.noConfusion h
    rw [Array.get_fst_of_ge c i (Nat.le_of_not_lt hi), Array.get_fst_of_ge d j (Nat.le_of_not_lt hj)]

/-! ## The container: `add`, `remove`, `get` -/

/-- C1: after `add(s)` the size is one more, `get(size - 1)` succeeds and
returns the very handle `s`, and `get(i)` for every old index `i` returns the
same handle as before the `add`. -/
theorem C1_add_then_get {T : Type} (c : Array T) (s : T) :
    (c.add s).size = c.size + 1 ∧
    ((c.add s).get ((c.add s).size - 1)).1 = Except.ok s ∧
    ∀ i, i < c.size → ((c.add s).get i).1 = (c.get i).1 := by
  refine ⟨by simp [Array.add, Array.size], ?_, ?_⟩
  · have h : c.data.length < (c.add s).data.length := by simp [Array.add]
    have e : (c.add s).size - 1 = c.data.length := by simp [Array.add, Array.size]
    rw [e, Array.get_fst_of_lt _ _ h]
    simp [Array.add]
  · intro i hi
    apply Array.get_fst_eq_of_getElem?
    exact List.getElem?_append_left hi

/-- Witness of C1: adding `7` to the container holding `3, 5`. -/
theorem C1_add_then_get_witness :
    ((Array.mk [3, 5]).add 7).size = 3 ∧
    (((Array.mk [3, 5]).add 7).get 2).1 = Except.ok 7 ∧
    (((Array.mk [3, 5]).add 7).get 1).1 = ((Array.mk [3, 5]).get 1).1 :=
  ⟨(C1_add_then_get (Array.mk [3, 5]) 7).1, (C1_add_then_get (Array.mk [3, 5]) 7).2.1,
    (C1_add_then_get (Array.mk [3, 5]) 7).2.2 1 (by decide)⟩

/-- C2: for an index `i` in bounds, `remove(i)` makes the size one less, leaves
every element below `i` in place and moves every element from `i + 1` on one
place down; at the indices past the new end `get` fails as it did one place
further up. -/
theorem C2_remove_in_bounds {T : Type} (c : Array T) (i : Nat) (h : i < c.size) :
    (c.remove i).size = c.size - 1 ∧
    (∀ j, j < i → ((c.remove i).get j).1 = (c.get j).1) ∧
    (∀ j, i ≤ j → ((c.remove i).get j).1 = (c.get (j + 1)).1) := by
  have hr : (c.remove i).data = c.data.eraseIdx i := by
    have h2 : i < c.data.length := h
    simp [Array.remove, h2]
  refine ⟨?_, ?_, ?_⟩
  · unfold Array.size
    rw [hr]
    exact List.length_eraseIdx_of_lt h
  · intro j hj
    apply Array.get_fst_eq_of_getElem?
    rw [hr]
    exact List.getElem?_eraseIdx_of_lt c.data i j hj
  · intro j hj
    apply Array.get_fst_eq_of_getElem?
    rw [hr]
    exact List.getElem?_eraseIdx_of_ge c.data i j hj

/-- Witness of C2: removing index `1` from the container holding `10, 20, 30, 40`. -/
theorem C2_remove_in_bounds_witness :
    1 < (Array.mk [10, 20, 30, 40]).size ∧
    ((Array.mk [10, 20, 30, 40]).remove 1).size = 4 - 1 ∧
    (((Array.mk [10, 20, 30, 40]).remove 1).get 0).1 = ((Array.mk [10, 20, 30, 40]).get 0).1 ∧
    (((Array.mk [10, 20, 30, 40]).remove 1).get 1).1 = ((Array.mk [10, 20, 30, 40]).get 2).1 ∧
    ((Array.mk [10, 20, 30, 40]).remove 1) = Array.mk [10, 30, 40] :=
  ⟨by decide,
    (C2_remove_in_bounds (Array.mk [10, 20, 30, 40]) 1 (by decide)).1,
    (C2_remove_in_bounds (Array.mk [10, 20, 30, 40]) 1 (by decide)).2.1 0 (by decide),
    (C2_remove_in_bounds (Array.mk [10, 20, 30, 40]) 1 (by decide)).2.2 1 (by decide),
    by decide⟩

/-- C3: for an index `i` at or past the end (any index when the container is
empty), `remove(i)` returns normally and the container is the one it was: the
same size and the same result of `get` at every index. -/
theorem C3_remove_out_of_bounds {T : Type} (c : Array T) (i : Nat) (h : c.size ≤ i) :
    c.remove i = c ∧
    (c.remove i).size = c.size ∧
    ∀ j, ((c.remove i).get j).1 = (c.get j).1 := by
  have hr : c.remove i = c := by
    have h2 : ¬ i < c.data.length := Nat.not_lt.mpr h
    simp [Array.remove, h2]
  rw [hr]
  exact ⟨rfl, rfl, fun _ => rfl⟩

/-- Witness of C3: index `2` on a container of size `2` and index `0` on the
empty container. -/
theorem C3_remove_out_of_bounds_witness :
    (Array.mk [10, 20]).size ≤ 2 ∧ (Array.mk [10, 20]).remove 2 = Array.mk [10, 20] ∧
    (Array.mk ([] : List Nat)).remove 0 = Array.mk [] :=
  ⟨by decide, (C3_remove_out_of_bounds (Array.mk [10, 20]) 2 (by decide)).1,
    (C3_remove_out_of_bounds (Array.mk ([] : List Nat)) 0 (by decide)).1⟩

/-- C4: `get(i)` throws if and only if `i >= size`, and what it throws is
`std::out_of_range`; for `i < size` it returns the handle stored at position
`i`; in both cases the container is unchanged. -/
theorem C4_get_index_error {T : Type} (c : Array T) (i : Nat) :
    ((∃ e, (c.get i).1 = Except.error e) ↔ c.size ≤ i) ∧
    ((c.get i).1 = Except.error (Exception.out_of_range "Index out of range") ↔ c.size ≤ i) ∧
    (∀ h : i < c.size, (c.get i).1 = Except.ok (c.data.get ⟨i, h⟩)) ∧
    (c.get i).2 = c := by
  refine ⟨?_, ?_, fun h => Array.get_fst_of_lt c i h, Array.get_snd c i⟩
  · constructor
    · rintro ⟨e, he⟩
      by_contra hlt
      rw [Array.get_fst_of_lt c i (Nat.lt_of_not_le hlt)] at he
      exact Except.noConfusion he
    · intro hge
      exact ⟨_, Array.get_fst_of_ge c i hge⟩
  · constructor
    · intro he
      by_contra hlt
      rw [Array.get_fst_of_lt c i (Nat.lt_of_not_le hlt)] at he
      exact Except.noConfusion he
    · intro hge
      exact Array.get_fst_of_ge c i hge

/-- Witness of C4: index `1` of the container holding `10, 20` is read, and
index `2` is out of range. -/
theorem C4_get_index_error_witness :
    ((Array.mk [10, 20]).get 1).1 = Except.ok 20 ∧
    ((Array.mk [10, 20]).get 2).1 = Except.error (Exception.out_of_range "Index out of range") :=
  ⟨(C4_get_index_error (Array.mk [10, 20]) 1).2.2.1 (by decide),
    (C4_get_index_error (Array.mk [10, 20]) 2).2.1.mpr (by decide)⟩

/-! ## `totalArea` -/

section Numeric

variable {α : Type} [LinearOrderedField α]

theorem Triangle.area_mk (a b c : Point α) :
    (Triangle.mk ![a, b, c]).area
      = |(a.x * (b.y - c.y) + b.x * (c.y - a.y) + c.x * (a.y - b.y)) / 2| := rfl

/-- C6: the area of a triangle is `|x1(y2-y3) + x2(y3-y1) + x3(y1-y2)| / 2`,
and the triangle `(0,0), (4,0), (2,3)` has area `6`. -/
theorem C6_triangle_area_formula :
    (∀ t : Triangle α,
      t.area = |(t.vertices 0).x * ((t.vertices 1).y - (t.vertices 2).y)
                + (t.vertices 1).x * ((t.vertices 2).y - (t.vertices 0).y)
                + (t.vertices 2).x * ((t.vertices 0).y - (t.vertices 1).y)| / 2) ∧
    (∀ x1 y1 x2 y2 x3 y3 : α,
      (Triangle.mk ![⟨x1, y1⟩, ⟨x2, y2⟩, ⟨x3, y3⟩]).area
        = |x1 * (y2 - y3) + x2 * (y3 - y1) + x3 * (y1 - y2)| / 2) ∧
    (Triangle.mk ![(⟨0, 0⟩ : Point α), ⟨4, 0⟩, ⟨2, 3⟩]).area = 6 := by
  refine ⟨?_, ?_, ?_⟩
  · intro t
    simp only [Triangle.area]
    rw [abs_div, abs_two]
  · intro x1 y1 x2 y2 x3 y3
    rw [Triangle.area_mk, abs_div, abs_two]
  · rw [Triangle.area_mk]
    norm_num

/-- In exact arithmetic the area does not depend on the order in which the
three points are stored: the six orderings of `a, b, c` give the same value. -/
theorem Triangle.area_orderings_exact (a b c : Point α) :
    (Triangle.mk ![a, c, b]).area = (Triangle.mk ![a, b, c]).area ∧
    (Triangle.mk ![b, a, c]).area = (Triangle.mk ![a, b, c]).area ∧
    (Triangle.mk ![b, c, a]).area = (Triangle.mk ![a, b, c]).area ∧
    (Triangle.mk ![c, a, b]).area = (Triangle.mk ![a, b, c]).area ∧
    (Triangle.mk ![c, b, a]).area = (Triangle.mk ![a, b, c]).area := by
  simp only [Triangle.area_mk]
  refine ⟨?_, ?_, ?_, ?_, ?_⟩
  · rw [← abs_neg]; congr 1; ring
  · rw [← abs_neg]; congr 1; ring
  · congr 1; ring
  · congr 1; ring
  · rw [← abs_neg]; congr 1; ring

/-! ## `Triangle<T>::isRegular` -/

theorem Triangle.isRegular_iff (sqrt : α → α) (t : Triangle α) :
    t.isRegular sqrt = true ↔
      (|(t.vertices 0).distance sqrt (t.vertices 1)
          - (t.vertices 1).distance sqrt (t.vertices 2)| < 1e-6 ∨
       |(t.vertices 1).distance sqrt (t.vertices 2)
          - (t.vertices 2).distance sqrt (t.vertices 0)| < 1e-6 ∨
       |(t.vertices 2).distance sqrt (t.vertices 0)
          - (t.vertices 0).distance sqrt (t.vertices 1)| < 1e-6) := by
  simp only [Triangle.isRegular, Bool.or_eq_true, decide_eq_true_eq]

theorem epsilon_pos : (0 : α) < 1e-6 := by norm_num

/-! ## `operator==` -/

theorem Point.operator_eq_iff (p q : Point α) :
    p.operator_eq q = true ↔ p.x = q.x ∧ p.y = q.y := by
  simp [Point.operator_eq]

theorem Point.operator_eq_iff_eq (p q : Point α) : p.operator_eq q = true ↔ p = q := by
  rw [Point.operator_eq_iff]
  cases p
  cases q
  simp

theorem Point.operator_ne_iff (p q : Point α) : p.operator_ne q = true ↔ p ≠ q := by
  simp [Point.operator_ne, ← Point.operator_eq_iff_eq]

theorem Triangle.operator_eq_triangle_iff (t t2 : Triangle α) :
    t.operator_eq (Figure.triangle t2) = true ↔
      t.vertices 0 = t2.vertices 0 ∧ t.vertices 1 = t2.vertices 1 ∧
        t.vertices 2 = t2.vertices 2 := by
  rw [← Point.operator_eq_iff_eq, ← Point.operator_eq_iff_eq, ← Point.operator_eq_iff_eq]
  simp only [Triangle.operator_eq, Point.operator_ne]
  by_cases h0 : (t.vertices 0).operator_eq (t2.vertices 0) = true <;>
    by_cases h1 : (t.vertices 1).operator_eq (t2.vertices 1) = true <;>
      by_cases h2 : (t.vertices 2).operator_eq (t2.vertices 2) = true <;>
        simp [h0, h1, h2]

theorem Triangle.operator_eq_mk_false (a b c d e f : Point α)
    (h : a ≠ d ∨ b ≠ e ∨ c ≠ f) :
    (Triangle.mk ![a, b, c]).operator_eq (Figure.triangle (Triangle.mk ![d, e, f])) = false := by
  rw [Bool.eq_false_iff, Ne, Triangle.operator_eq_triangle_iff]
  rintro ⟨h0, h1, h2⟩
  rcases h with h | h | h
  · exact h h0
  · exact h h1
  · exact h h2

/-- C9: `t == o` for a triangle `t` is true exactly when `o` is a triangle
whose vertex `i` equals vertex `i` of `t` for `i = 0, 1, 2`; it is false for
every hexagon and every octagon, and false for the triangle that stores three
pairwise distinct points in any of the five other orders. -/
theorem C9_triangle_operator_eq (t : Triangle α) (o : Figure α) :
    (t.operator_eq o = true ↔
      ∃ t2 : Triangle α, o = Figure.triangle t2 ∧ ∀ i : Fin 3, t.vertices i = t2.vertices i) ∧
    ((Figure.triangle t).operator_eq o = t.operator_eq o) ∧
    (∀ h : Hexagon α, t.operator_eq (Figure.hexagon h) = false) ∧
    (∀ o8 : Octagon α, t.operator_eq (Figure.octagon o8) = false) ∧
    (∀ a b c : Point α, a ≠ b → b ≠ c → c ≠ a →
      (Triangle.mk ![a, b, c]).operator_eq (Figure.triangle (Triangle.mk ![b, c, a])) = false ∧
      (Triangle.mk ![a, b, c]).operator_eq (Figure.triangle (Triangle.mk ![c, a, b])) = false ∧
      (Triangle.mk ![a, b, c]).operator_eq (Figure.triangle (Triangle.mk ![a, c, b])) = false ∧
      (Triangle.mk ![a, b, c]).operator_eq (Figure.triangle (Triangle.mk ![c, b, a])) = false ∧
      (Triangle.mk ![a, b, c]).operator_eq (Figure.triangle (Triangle.mk ![b, a, c])) = false) := by
  refine ⟨?_, rfl, fun _ => rfl, fun _ => rfl, ?_⟩
  · cases o with
    | triangle t2 =>
      rw [Triangle.operator_eq_triangle_iff]
      constructor
      · rintro ⟨h0, h1, h2⟩
        refine ⟨t2, rfl, ?_⟩
        intro i
        fin_cases i
        · exact h0
        · exact h1
        · exact h2
      · rintro ⟨t3, ht, hv⟩
        cases ht
        exact ⟨hv 0, hv 1, hv 2⟩
    | hexagon h =>
      constructor
      · intro hf
        exact Bool.noConfusion hf
      · rintro ⟨t3, ht, _⟩
        exact Figure.noConfusion ht
    | octagon o8 =>
      constructor
      · intro hf
        exact Bool.noConfusion hf
      · rintro ⟨t3, ht, _⟩
        exact Figure.noConfusion ht
  · intro a b c hab hbc hca
    refine ⟨?_, ?_, ?_, ?_, ?_⟩
    · exact Triangle.operator_eq_mk_false _ _ _ _ _ _ (Or.inl hab)
    · exact Triangle.operator_eq_mk_false _ _ _ _ _ _ (Or.inl hca.symm)
    · exact Triangle.operator_eq_mk_false _ _ _ _ _ _ (Or.inr (Or.inl hbc))
    · exact Triangle.operator_eq_mk_false _ _ _ _ _ _ (Or.inl hca.symm)
    · exact Triangle.operator_eq_mk_false _ _ _ _ _ _ (Or.inl hab)

/-- Witness of C9: the points `(0,0), (4,0), (2,3)` are pairwise distinct, and
the triangle storing them in this order differs from the one storing them
rotated. -/
theorem C9_triangle_operator_eq_witness :
    ((⟨0, 0⟩ : Point ℚ) ≠ ⟨4, 0⟩ ∧ (⟨4, 0⟩ : Point ℚ) ≠ ⟨2, 3⟩ ∧ (⟨2, 3⟩ : Point ℚ) ≠ ⟨0, 0⟩) ∧
    (Triangle.mk ![(⟨0, 0⟩ : Point ℚ), ⟨4, 0⟩, ⟨2, 3⟩]).operator_eq
      (Figure.triangle (Triangle.mk ![(⟨4, 0⟩ : Point ℚ), ⟨2, 3⟩, ⟨0, 0⟩])) = false :=
  ⟨⟨by decide, by decide, by decide⟩,
    ((C9_triangle_operator_eq (Triangle.mk ![(⟨0, 0⟩ : Point ℚ), ⟨4, 0⟩, ⟨2, 3⟩])
      (Figure.triangle (Triangle.mk ![(⟨0, 0⟩ : Point ℚ), ⟨4, 0⟩, ⟨2, 3⟩]))).2.2.2.2
      ⟨0, 0⟩ ⟨4, 0⟩ ⟨2, 3⟩ (by decide) (by decide) (by decide)).1⟩

theorem Hexagon.operator_eq_hexagon_iff (h h2 : Hexagon α) :
    h.operator_eq (Figure.hexagon h2) = true ↔
      h.center.x = h2.center.x ∧ h.center.y = h2.center.y ∧ h.radius = h2.radius := by
  simp [Hexagon.operator_eq, Point.operator_eq, and_assoc]

theorem Octagon.operator_eq_octagon_iff (o o2 : Octagon α) :
    o.operator_eq (Figure.octagon o2) = true ↔
      o.center.x = o2.center.x ∧ o.center.y = o2.center.y ∧ o.radius = o2.radius := by
  simp [Octagon.operator_eq, Point.operator_eq, and_assoc]

/-- C10: `h == o` for a hexagon (resp. octagon) `h` is true exactly when `o`
is a hexagon (resp. octagon) with the same two centre coordinates and the same
radius; a hexagon and an octagon with one centre and one radius are unequal in
both directions. -/
theorem C10_hexagon_octagon_operator_eq (h : Hexagon α) (o8 : Octagon α) (o : Figure α) :
    (h.operator_eq o = true ↔
      ∃ h2 : Hexagon α, o = Figure.hexagon h2 ∧
        h2.center.x = h.center.x ∧ h2.center.y = h.center.y ∧ h2.radius = h.radius) ∧
    (o8.operator_eq o = true ↔
      ∃ o2 : Octagon α, o = Figure.octagon o2 ∧
        o2.center.x = o8.center.x ∧ o2.center.y = o8.center.y ∧ o2.radius = o8.radius) ∧
    ((Figure.hexagon h).operator_eq o = h.operator_eq o) ∧
    ((Figure.octagon o8).operator_eq o = o8.operator_eq o) ∧
    (∀ (c : Point α) (r : α),
      (Figure.hexagon (Hexagon.mk c r)).operator_eq (Figure.octagon (Octagon.mk c r)) = false ∧
      (Figure.octagon (Octagon.mk c r)).operator_eq (Figure.hexagon (Hexagon.mk c r)) = false) := by
  refine ⟨?_, ?_, rfl, rfl, fun _ _ => ⟨rfl, rfl⟩⟩
  · cases o with
    | hexagon h2 =>
      rw [Hexagon.operator_eq_hexagon_iff]
      constructor
      · rintro ⟨hx, hy, hr⟩
        exact ⟨h2, rfl, hx.symm, hy.symm, hr.symm⟩
      · rintro ⟨h3, ht, hx, hy, hr⟩
        cases ht
        exact ⟨hx.symm, hy.symm, hr.symm⟩
    | triangle t =>
      constructor
      · intro hf
        exact Bool.noConfusion hf
      · rintro ⟨h3, ht, _⟩
        exact Figure.noConfusion ht
    | octagon o2 =>
      constructor
      · intro hf
        exact Bool.noConfusion hf
      · rintro ⟨h3, ht, _⟩
        exact Figure.noConfusion ht
  · cases o with
    | octagon o2 =>
      rw [Octagon.operator_eq_octagon_iff]
      constructor
      · rintro ⟨hx, hy, hr⟩
        exact ⟨o2, rfl, hx.symm, hy.symm, hr.symm⟩
      · rintro ⟨o3, ht, hx, hy, hr⟩
        cases ht
        exact ⟨hx.symm, hy.symm, hr.symm⟩
    | triangle t =>
      constructor
      · intro hf
        exact Bool.noConfusion hf
      · rintro ⟨o3, ht, _⟩
        exact Figure.noConfusion ht
    | hexagon h2 =>
      constructor
      · intro hf
        exact Bool.noConfusion hf
      · rintro ⟨o3, ht, _⟩
        exact Figure.noConfusion ht

/-! ## The closed-form areas of `Octagon<T>` and `Hexagon<T>` -/

theorem real_sqrt_two_bounds : 1.4142 < Real.sqrt 2 ∧ Real.sqrt 2 < 1.41425 := by
  constructor
  · rw [Real.lt_sqrt (by norm_num)]
    norm_num
  · rw [Real.sqrt_lt' (by norm_num)]
    norm_num

theorem real_sqrt_three_bounds : 1.732 < Real.sqrt 3 ∧ Real.sqrt 3 < 1.73208 := by
  constructor
  · rw [Real.lt_sqrt (by norm_num)]
    norm_num
  · rw [Real.sqrt_lt' (by norm_num)]
    norm_num

theorem Octagon.area_real (c : Point ℝ) (r : ℝ) :
    (Octagon.mk c r).area Real.sqrt = 2 * Real.sqrt 2 * r ^ 2 := by
  have h2 : Real.sqrt 2 ^ 2 = 2 := Real.sq_sqrt (by norm_num)
  have hle : (0 : ℝ) ≤ 2 - Real.sqrt 2 := by
    have := real_sqrt_two_bounds.2
    linarith
  have hs : Real.sqrt (2 - Real.sqrt 2) ^ 2 = 2 - Real.sqrt 2 := Real.sq_sqrt hle
  simp only [Octagon.area]
  linear_combination (2 * (1 + Real.sqrt 2) * r ^ 2) * hs - 2 * r ^ 2 * h2

/-- C11: the area of an octagon of radius `r` is `2 (1 + sqrt 2) s^2` with
`s = r sqrt (2 - sqrt 2)`, which is `2 sqrt 2 * r^2`, whatever the centre; for
centre `(0,0)` and radius `1` it is `2 sqrt 2`, within `0.0005` of `2.828`. -/
theorem C11_octagon_area (c : Point ℝ) (r : ℝ) :
    (Octagon.mk c r).area Real.sqrt
      = 2 * (1 + Real.sqrt 2) * (r * Real.sqrt (2 - Real.sqrt 2)) ^ 2 ∧
    (Octagon.mk c r).area Real.sqrt = 2 * Real.sqrt 2 * r ^ 2 ∧
    (Octagon.mk (⟨0, 0⟩ : Point ℝ) 1).area Real.sqrt = 2 * Real.sqrt 2 ∧
    |(Octagon.mk (⟨0, 0⟩ : Point ℝ) 1).area Real.sqrt - 2.828| < 0.0005 := by
  refine ⟨?_, Octagon.area_real c r, ?_, ?_⟩
  · simp only [Octagon.area]
    ring
  · rw [Octagon.area_real]
    norm_num
  · rw [Octagon.area_real, abs_lt]
    have h := real_sqrt_two_bounds
    constructor
    · norm_num
      linarith [h.1]
    · norm_num
      linarith [h.2]

/-- C12: the area of a hexagon of radius `r` is `(3 sqrt 3 / 2) r^2` and its
`isRegular()` is true, whatever the centre; for centre `(0,0)` and radius `2`
the area is `6 sqrt 3`, within `0.0005` of `10.392`. -/
theorem C12_hexagon_area (c : Point ℝ) (r : ℝ) :
    (Hexagon.mk c r).area Real.sqrt = (3 * Real.sqrt 3 / 2) * r ^ 2 ∧
    (Hexagon.mk c r).isRegular = true ∧
    (Figure.hexagon (Hexagon.mk c r)).isRegular Real.sqrt = true ∧
    (Hexagon.mk (⟨0, 0⟩ : Point ℝ) 2).area Real.sqrt = (3 * Real.sqrt 3 / 2) * 4 ∧
    (Hexagon.mk (⟨0, 0⟩ : Point ℝ) 2).area Real.sqrt = 6 * Real.sqrt 3 ∧
    |(Hexagon.mk (⟨0, 0⟩ : Point ℝ) 2).area Real.sqrt - 10.392| < 0.0005 := by
  have e : (Hexagon.mk (⟨0, 0⟩ : Point ℝ) 2).area Real.sqrt = 6 * Real.sqrt 3 := by
    simp only [Hexagon.area]
    ring
  refine ⟨?_, rfl, rfl, ?_, e, ?_⟩
  · simp only [Hexagon.area]
    ring
  · rw [e]
    ring
  · rw [e, abs_lt]
    have h := real_sqrt_three_bounds
    constructor
    · linarith [h.1]
    · linarith [h.2]

/-- In exact arithmetic `area()` is non-negative for every triangle, and with
the real square root for every figure: any hexagon and any octagon, of any
centre and any radius, zero and negative radii included. -/
theorem area_nonneg_exact :
    (∀ t : Triangle α, 0 ≤ t.area) ∧
    (∀ f : Figure ℝ, 0 ≤ f.area Real.sqrt) ∧
    (∀ (c : Point ℝ) (r : ℝ), 0 ≤ (Hexagon.mk c r).area Real.sqrt) ∧
    (∀ (c : Point ℝ) (r : ℝ), 0 ≤ (Octagon.mk c r).area Real.sqrt) := by
  have hhex : ∀ (c : Point ℝ) (r : ℝ), 0 ≤ (Hexagon.mk c r).area Real.sqrt := by
    intro c r
    simp only [Hexagon.area]
    have h3 : 0 ≤ Real.sqrt 3 := Real.sqrt_nonneg 3
    have hr : 0 ≤ r * r := mul_self_nonneg r
    have e : 3 * Real.sqrt 3 / 2 * r * r = (3 / 2) * (Real.sqrt 3 * (r * r)) := by ring
    rw [e]
    positivity
  have hoct : ∀ (c : Point ℝ) (r : ℝ), 0 ≤ (Octagon.mk c r).area Real.sqrt := by
    intro c r
    rw [Octagon.area_real]
    have h2 : 0 ≤ Real.sqrt 2 := Real.sqrt_nonneg 2
    positivity
  refine ⟨fun t => abs_nonneg _, ?_, hhex, hoct⟩
  intro f
  cases f with
  | triangle t => exact abs_nonneg _
  | hexagon h => exact hhex h.center h.radius
  | octagon o => exact hoct o.center o.radius

/-! ## `Point<T>`: division and distance -/

/-- C14: dividing a point by `0` throws `std::invalid_argument` and yields no
point; dividing by a nonzero scalar returns `(x / s, y / s)`; so the division
throws exactly when the scalar is zero. -/
theorem C14_point_division (p : Point α) (s : α) :
    p.operator_div 0 = Except.error (Exception.invalid_argument "Division by zero") ∧
    (s ≠ 0 → p.operator_div s = Except.ok ⟨p.x / s, p.y / s⟩) ∧
    ((∃ e, p.operator_div s = Except.error e) ↔ s = 0) := by
  refine ⟨by simp [Point.operator_div], ?_, ?_⟩
  · intro hs
    simp [Point.operator_div, hs]
  · constructor
    · rintro ⟨e, he⟩
      by_contra hs
      simp [Point.operator_div, hs] at he
    · intro hs
      exact ⟨Exception.invalid_argument "Division by zero", by simp [Point.operator_div, hs]⟩

/-- Witness of C14: `(6, 9) / 3 = (2, 3)`. -/
theorem C14_point_division_witness :
    (3 : ℚ) ≠ 0 ∧ (Point.mk (6 : ℚ) 9).operator_div 3 = Except.ok ⟨6 / 3, 9 / 3⟩ :=
  ⟨by decide, (C14_point_division (Point.mk (6 : ℚ) 9) 3).2.1 (by decide)⟩

/-- In exact arithmetic, for a nonzero scalar `s`, `(p * s) / s` does not
throw and is the point `p`, also in the sense of `operator==`. -/
theorem Point.mul_then_div_exact (p : Point α) (s : α) (hs : s ≠ 0) :
    (p.operator_mul s).operator_div s = Except.ok p ∧
    ∃ q, (p.operator_mul s).operator_div s = Except.ok q ∧ q.operator_eq p = true := by
  have e : (p.operator_mul s).operator_div s = Except.ok p := by
    cases p with
    | mk x y => simp [Point.operator_div, Point.operator_mul, hs]
  exact ⟨e, p, e, (Point.operator_eq_iff_eq p p).mpr rfl⟩

/-- C16: `p.distance(q)` is the square root of `(p.x-q.x)^2 + (p.y-q.y)^2`,
it is symmetric in `p` and `q`, and `p.distance(p)` is `0` for a square root
with `sqrt 0 = 0`, as the real square root is. -/
theorem C16_distance (sqrt : α → α) (p q : Point α) :
    p.distance sqrt q = sqrt ((p.x - q.x) ^ 2 + (p.y - q.y) ^ 2) ∧
    p.distance sqrt q = q.distance sqrt p ∧
    (sqrt 0 = 0 → p.distance sqrt p = 0) ∧
    (∀ a b : Point ℝ, a.distance Real.sqrt b = b.distance Real.sqrt a) ∧
    (∀ a : Point ℝ, a.distance Real.sqrt a = 0) := by
  have hself : ∀ (sq : α → α) (a : Point α), sq 0 = 0 → a.distance sq a = 0 := by
    intro sq a h0
    simp only [Point.distance, sub_self, mul_zero, add_zero]
    exact h0
  have hsymm : ∀ (β : Type) [LinearOrderedField β] (sq : β → β) (a b : Point β),
      a.distance sq b = b.distance sq a := by
    intro β _ sq a b
    simp only [Point.distance]
    congr 1
    ring
  refine ⟨?_, hsymm α sqrt p q, hself sqrt p, hsymm ℝ Real.sqrt, ?_⟩
  · simp only [Point.distance]
    congr 1
    ring
  · intro a
    simp only [Point.distance, sub_self, mul_zero, add_zero]
    exact Real.sqrt_zero

/-- Witness of C16: with the real square root, the distance from `(3, 4)` to
itself is `0`. -/
theorem C16_distance_witness :
    Real.sqrt 0 = 0 ∧ (Point.mk (3 : ℝ) 4).distance Real.sqrt (Point.mk (3 : ℝ) 4) = 0 :=
  ⟨Real.sqrt_zero,
    (C16_distance Real.sqrt (Point.mk (3 : ℝ) 4) (Point.mk (3 : ℝ) 4)).2.2.1 Real.sqrt_zero⟩

/-! ## `printVertices` followed by `readVertices` -/

theorem printVertexList_cons {β : Type} (a : Item β) (os : OStream β)
    (vertices : List (Point β)) :
    ∃ rest, printVertexList (a :: os) vertices = a :: rest := by
  induction vertices generalizing os with
  | nil => exact ⟨os, rfl⟩
  | cons v vs ih =>
    simp only [printVertexList, List.foldl_cons, List.cons_append]
    exact ih _

theorem hexagon_printVertices_head (M_PI : α) (cos sin : α → α) (h : Hexagon α) :
    ∃ rest, h.printVertices M_PI cos sin [] = Item.text "Hexagon vertices: " :: rest := by
  obtain ⟨rest, hrest⟩ :=
    printVertexList_cons (Item.text "Hexagon vertices: ") [] (h.calculateVertices M_PI cos sin)
  simp only [Hexagon.printVertices, Point.operator_shl, List.nil_append, hrest,
    List.cons_append]
  exact ⟨_, rfl⟩

theorem octagon_printVertices_head (M_PI : α) (cos sin : α → α) (o : Octagon α) :
    ∃ rest, o.printVertices M_PI cos sin [] = Item.text "Octagon vertices: " :: rest := by
  obtain ⟨rest, hrest⟩ :=
    printVertexList_cons (Item.text "Octagon vertices: ") [] (o.calculateVertices M_PI cos sin)
  simp only [Octagon.printVertices, Point.operator_shl, List.nil_append, hrest,
    List.cons_append]
  exact ⟨_, rfl⟩

/-- On an input that begins with text, `Hexagon<T>::readVertices` reads
nothing: `x` becomes `0`, `y` and `r` keep their values, `failbit` is set. -/
theorem hexagon_readVertices_text (self : Hexagon α) (s : String) (rest : List (Item α))
    (x0 y0 r0 : α) :
    self.readVertices ⟨Item.text s :: rest, false⟩ x0 y0 r0
      = (⟨⟨0, y0⟩, r0⟩, ⟨Item.text s :: rest, true⟩) := by
  simp [Hexagon.readVertices, IStream.extract]

/-- On an input that begins with text, `Octagon<T>::readVertices` reads
nothing: `x` becomes `0`, `y` and `r` keep their values, `failbit` is set. -/
theorem octagon_readVertices_text (self : Octagon α) (s : String) (rest : List (Item α))
    (x0 y0 r0 : α) :
    self.readVertices ⟨Item.text s :: rest, false⟩ x0 y0 r0
      = (⟨⟨0, y0⟩, r0⟩, ⟨Item.text s :: rest, true⟩) := by
  simp [Octagon.readVertices, IStream.extract]

theorem hexagon_readVertices_numbers (self : Hexagon α) (x y r : α) (rest : List (Item α))
    (x0 y0 r0 : α) :
    self.readVertices ⟨Item.number x :: Item.number y :: Item.number r :: rest, false⟩ x0 y0 r0
      = (⟨⟨x, y⟩, r⟩, ⟨rest, false⟩) := by
  simp [Hexagon.readVertices, IStream.extract]

theorem octagon_readVertices_numbers (self : Octagon α) (x y r : α) (rest : List (Item α))
    (x0 y0 r0 : α) :
    self.readVertices ⟨Item.number x :: Item.number y :: Item.number r :: rest, false⟩ x0 y0 r0
      = (⟨⟨x, y⟩, r⟩, ⟨rest, false⟩) := by
  simp [Octagon.readVertices, IStream.extract]

/-- C17, as stated, fails: for the hexagon and the octagon of centre `(1, 0)`
and radius `1`, whatever the three uninitialised locals of `readVertices`
hold, reading the output of `printVertices` into a default-constructed shape
of the same class gives a shape that is not `==` to the printed one. -/
theorem C17_roundtrip_counterexample :
    (¬ ∃ x0 y0 r0 : ℝ,
      Hexagon.operator_eq
        ((Hexagon.Hexagon_default : Hexagon ℝ).readVertices
          ⟨(Hexagon.mk (⟨1, 0⟩ : Point ℝ) 1).printVertices Real.pi Real.cos Real.sin [], false⟩
          x0 y0 r0).1
        (Figure.hexagon (Hexagon.mk (⟨1, 0⟩ : Point ℝ) 1)) = true) ∧
    (¬ ∃ x0 y0 r0 : ℝ,
      Octagon.operator_eq
        ((Octagon.Octagon_default : Octagon ℝ).readVertices
          ⟨(Octagon.mk (⟨1, 0⟩ : Point ℝ) 1).printVertices Real.pi Real.cos Real.sin [], false⟩
          x0 y0 r0).1
        (Figure.octagon (Octagon.mk (⟨1, 0⟩ : Point ℝ) 1)) = true) := by
  constructor
  · rintro ⟨x0, y0, r0, h⟩
    obtain ⟨rest, hrest⟩ :=
      hexagon_printVertices_head Real.pi Real.cos Real.sin (Hexagon.mk (⟨1, 0⟩ : Point ℝ) 1)
    rw [hrest, hexagon_readVertices_text, Hexagon.operator_eq_hexagon_iff] at h
    exact zero_ne_one h.1
  · rintro ⟨x0, y0, r0, h⟩
    obtain ⟨rest, hrest⟩ :=
      octagon_printVertices_head Real.pi Real.cos Real.sin (Octagon.mk (⟨1, 0⟩ : Point ℝ) 1)
    rw [hrest, octagon_readVertices_text, Octagon.operator_eq_octagon_iff] at h
    exact zero_ne_one h.1

/-- C17, amended: reading the three numbers `center.x`, `center.y`, `radius`
of a hexagon (resp. octagon) `h` into a default-constructed shape of the same
class gives `h`, a shape `==` to `h`, and consumes just these three numbers;
the output of `printVertices` begins with the label `Hexagon vertices: `
(resp. `Octagon vertices: `), and on it `readVertices` sets `failbit` and
stores `0` in the first coordinate of the centre. -/
theorem C17_roundtrip_of_parameters (M_PI : α) (cos sin : α → α) (h : Hexagon α)
    (o : Octagon α) (rest : List (Item α)) (x0 y0 r0 : α) :
    (Hexagon.Hexagon_default.readVertices
        ⟨Item.number h.center.x :: Item.number h.center.y :: Item.number h.radius :: rest,
          false⟩ x0 y0 r0 = (h, ⟨rest, false⟩) ∧
      Hexagon.operator_eq
        (Hexagon.Hexagon_default.readVertices
          ⟨Item.number h.center.x :: Item.number h.center.y :: Item.number h.radius :: rest,
            false⟩ x0 y0 r0).1 (Figure.hexagon h) = true) ∧
    (Octagon.Octagon_default.readVertices
        ⟨Item.number o.center.x :: Item.number o.center.y :: Item.number o.radius :: rest,
          false⟩ x0 y0 r0 = (o, ⟨rest, false⟩) ∧
      Octagon.operator_eq
        (Octagon.Octagon_default.readVertices
          ⟨Item.number o.center.x :: Item.number o.center.y :: Item.number o.radius :: rest,
            false⟩ x0 y0 r0).1 (Figure.octagon o) = true) ∧
    ((h.printVertices M_PI cos sin []).head? = some (Item.text "Hexagon vertices: ") ∧
      (Hexagon.Hexagon_default.readVertices ⟨h.printVertices M_PI cos sin [], false⟩
        x0 y0 r0).2.failbit = true ∧
      (Hexagon.Hexagon_default.readVertices ⟨h.printVertices M_PI cos sin [], false⟩
        x0 y0 r0).1 = ⟨⟨0, y0⟩, r0⟩) ∧
    ((o.printVertices M_PI cos sin []).head? = some (Item.text "Octagon vertices: ") ∧
      (Octagon.Octagon_default.readVertices ⟨o.printVertices M_PI cos sin [], false⟩
        x0 y0 r0).2.failbit = true ∧
      (Octagon.Octagon_default.readVertices ⟨o.printVertices M_PI cos sin [], false⟩
        x0 y0 r0).1 = ⟨⟨0, y0⟩, r0⟩) := by
  refine ⟨?_, ?_, ?_, ?_⟩
  · rw [hexagon_readVertices_numbers]
    refine ⟨rfl, ?_⟩
    rw [Hexagon.operator_eq_hexagon_iff]
    exact ⟨rfl, rfl, rfl⟩
  · rw [octagon_readVertices_numbers]
    refine ⟨rfl, ?_⟩
    rw [Octagon.operator_eq_octagon_iff]
    exact ⟨rfl, rfl, rfl⟩
  · obtain ⟨tl, htl⟩ := hexagon_printVertices_head M_PI cos sin h
    rw [htl, hexagon_readVertices_text]
    exact ⟨rfl, rfl, rfl⟩
  · obtain ⟨tl, htl⟩ := octagon_printVertices_head M_PI cos sin o
    rw [htl, octagon_readVertices_text]
    exact ⟨rfl, rfl, rfl⟩

/-! ## `clone` -/

theorem Triangle.Triangle_copy_eq {β : Type} (t : Triangle β) : Triangle.Triangle_copy t = t :=
  rfl

theorem update_three {β : Type} (f : Fin 3 → β) (a b c : β) :
    Function.update (Function.update (Function.update f 0 a) 1 b) 2 c = ![a, b, c] := by
  funext i
  fin_cases i <;> simp [Function.update]

theorem triangle_readVertices_numbers (self : Triangle α) (x1 y1 x2 y2 x3 y3 : α)
    (rest : List (Item α)) (uninit : Fin 3 → α × α) :
    self.readVertices
        ⟨Item.number x1 :: Item.number y1 :: Item.number x2 :: Item.number y2 ::
          Item.number x3 :: Item.number y3 :: rest, false⟩ uninit
      = (⟨![⟨x1, y1⟩, ⟨x2, y2⟩, ⟨x3, y3⟩]⟩, ⟨rest, false⟩) := by
  simp [Triangle.readVertices, IStream.extract, update_three]

/-- C19: on six numbers read as three pairs `x y`, menu option 1 appends the
triangle with these three vertices at the end of the collection when its
`isRegular()` is true and leaves the collection as it is otherwise; on three
numbers read as `x y r`, menu options 2 and 3 append the hexagon (resp.
octagon) of centre `(x, y)` and radius `r`.  The numbers read are consumed. -/
theorem C19_menu_add (sqrt : α → α) (c : Array (Figure α)) (x1 y1 x2 y2 x3 y3 r : α)
    (rest : List (Item α)) (uninit : Fin 3 → α × α) (x0 y0 r0 : α) :
    (main_case1 sqrt c
        ⟨Item.number x1 :: Item.number y1 :: Item.number x2 :: Item.number y2 ::
          Item.number x3 :: Item.number y3 :: rest, false⟩ uninit
      = (if (Triangle.mk ![⟨x1, y1⟩, ⟨x2, y2⟩, ⟨x3, y3⟩]).isRegular sqrt = true then
            c.add (Figure.triangle (Triangle.mk ![⟨x1, y1⟩, ⟨x2, y2⟩, ⟨x3, y3⟩]))
          else c,
          ⟨rest, false⟩)) ∧
    ((Triangle.mk ![⟨x1, y1⟩, ⟨x2, y2⟩, ⟨x3, y3⟩]).isRegular sqrt = true →
      (main_case1 sqrt c
        ⟨Item.number x1 :: Item.number y1 :: Item.number x2 :: Item.number y2 ::
          Item.number x3 :: Item.number y3 :: rest, false⟩ uninit).1.data
        = c.data ++ [Figure.triangle (Triangle.mk ![⟨x1, y1⟩, ⟨x2, y2⟩, ⟨x3, y3⟩])]) ∧
    ((Triangle.mk ![⟨x1, y1⟩, ⟨x2, y2⟩, ⟨x3, y3⟩]).isRegular sqrt = false →
      (main_case1 sqrt c
        ⟨Item.number x1 :: Item.number y1 :: Item.number x2 :: Item.number y2 ::
          Item.number x3 :: Item.number y3 :: rest, false⟩ uninit).1 = c) ∧
    (main_case2 c ⟨Item.number x1 :: Item.number y1 :: Item.number r :: rest, false⟩ x0 y0 r0
      = (c.add (Figure.hexagon (Hexagon.mk ⟨x1, y1⟩ r)), ⟨rest, false⟩)) ∧
    ((main_case2 c ⟨Item.number x1 :: Item.number y1 :: Item.number r :: rest, false⟩
        x0 y0 r0).1.data = c.data ++ [Figure.hexagon (Hexagon.mk ⟨x1, y1⟩ r)]) ∧
    (main_case3 c ⟨Item.number x1 :: Item.number y1 :: Item.number r :: rest, false⟩ x0 y0 r0
      = (c.add (Figure.octagon (Octagon.mk ⟨x1, y1⟩ r)), ⟨rest, false⟩)) ∧
    ((main_case3 c ⟨Item.number x1 :: Item.number y1 :: Item.number r :: rest, false⟩
        x0 y0 r0).1.data = c.data ++ [Figure.octagon (Octagon.mk ⟨x1, y1⟩ r)]) := by
  have e1 : main_case1 sqrt c
        ⟨Item.number x1 :: Item.number y1 :: Item.number x2 :: Item.number y2 ::
          Item.number x3 :: Item.number y3 :: rest, false⟩ uninit
      = (if (Triangle.mk ![⟨x1, y1⟩, ⟨x2, y2⟩, ⟨x3, y3⟩]).isRegular sqrt = true then
            c.add (Figure.triangle (Triangle.mk ![⟨x1, y1⟩, ⟨x2, y2⟩, ⟨x3, y3⟩]))
          else c,
          ⟨rest, false⟩) := by
    simp only [main_case1, triangle_readVertices_numbers]
    split <;> rfl
  have e2 : main_case2 c ⟨Item.number x1 :: Item.number y1 :: Item.number r :: rest, false⟩
        x0 y0 r0 = (c.add (Figure.hexagon (Hexagon.mk ⟨x1, y1⟩ r)), ⟨rest, false⟩) := by
    simp only [main_case2, hexagon_readVertices_numbers]
  have e3 : main_case3 c ⟨Item.number x1 :: Item.number y1 :: Item.number r :: rest, false⟩
        x0 y0 r0 = (c.add (Figure.octagon (Octagon.mk ⟨x1, y1⟩ r)), ⟨rest, false⟩) := by
    simp only [main_case3, octagon_readVertices_numbers]
  refine ⟨e1, ?_, ?_, e2, ?_, e3, ?_⟩
  · intro hreg
    rw [e1, if_pos hreg]
    rfl
  · intro hreg
    rw [e1, if_neg (by rw [hreg]; exact Bool.false_ne_true)]
  · rw [e2]
    rfl
  · rw [e3]
    rfl

/-! ## `calculateVertices` -/

theorem hexagon_calculateVertices_eq (M_PI : α) (cos sin : α → α) (h : Hexagon α) :
    h.calculateVertices M_PI cos sin
      = (List.range 6).map (regularVertex M_PI cos sin h.center h.radius 6) := by
  simp [Hexagon.calculateVertices, regularVertex, List.range_succ, List.replicate]

theorem octagon_calculateVertices_eq (M_PI : α) (cos sin : α → α) (o : Octagon α) :
    o.calculateVertices M_PI cos sin
      = (List.range 8).map (regularVertex M_PI cos sin o.center o.radius 8) := by
  simp [Octagon.calculateVertices, regularVertex, List.range_succ, List.replicate]

/-- The distance between the points of a circle at the angles `a` and `b`. -/
theorem distance_on_circle (c : Point ℝ) (r a b : ℝ) :
    Point.distance Real.sqrt
        (⟨c.x + r * Real.cos a, c.y + r * Real.sin a⟩ : Point ℝ)
        ⟨c.x + r * Real.cos b, c.y + r * Real.sin b⟩
      = |r| * Real.sqrt (2 - 2 * Real.cos (a - b)) := by
  simp only [Point.distance]
  have ha := Real.sin_sq_add_cos_sq a
  have hb := Real.sin_sq_add_cos_sq b
  have e : (c.x + r * Real.cos a - (c.x + r * Real.cos b))
        * (c.x + r * Real.cos a - (c.x + r * Real.cos b))
      + (c.y + r * Real.sin a - (c.y + r * Real.sin b))
        * (c.y + r * Real.sin a - (c.y + r * Real.sin b))
      = r ^ 2 * (2 - 2 * Real.cos (a - b)) := by
    rw [Real.cos_sub]
    linear_combination r ^ 2 * ha + r ^ 2 * hb
  rw [e, Real.sqrt_mul (sq_nonneg r), Real.sqrt_sq_eq_abs]

/-- Every vertex of the regular `n`-gon is at the distance `|r|` from the
centre. -/
theorem regularVertex_distance_center (c : Point ℝ) (r : ℝ) (n i : Nat) :
    (regularVertex Real.pi Real.cos Real.sin c r n i).distance Real.sqrt c = |r| := by
  simp only [regularVertex, Point.distance]
  have h := Real.sin_sq_add_cos_sq (2 * Real.pi * (Nat.cast i : ℝ) / (Nat.cast n : ℝ))
  have e : (c.x + r * Real.cos (2 * Real.pi * (Nat.cast i : ℝ) / (Nat.cast n : ℝ)) - c.x)
        * (c.x + r * Real.cos (2 * Real.pi * (Nat.cast i : ℝ) / (Nat.cast n : ℝ)) - c.x)
      + (c.y + r * Real.sin (2 * Real.pi * (Nat.cast i : ℝ) / (Nat.cast n : ℝ)) - c.y)
        * (c.y + r * Real.sin (2 * Real.pi * (Nat.cast i : ℝ) / (Nat.cast n : ℝ)) - c.y)
      = r ^ 2 := by
    linear_combination r ^ 2 * h
  rw [e, Real.sqrt_sq_eq_abs]

/-- Two cyclically consecutive vertices of the regular `n`-gon are at the
distance `|r| * sqrt (2 - 2 cos (2π/n))`. -/
theorem regularVertex_distance_next (c : Point ℝ) (r : ℝ) (n i : Nat) (hi : i < n) :
    (regularVertex Real.pi Real.cos Real.sin c r n i).distance Real.sqrt
        (regularVertex Real.pi Real.cos Real.sin c r n ((i + 1) % n))
      = |r| * Real.sqrt (2 - 2 * Real.cos (2 * Real.pi / (Nat.cast n : ℝ))) := by
  have hn : (0 : ℝ) < (Nat.cast n : ℝ) := Nat.cast_pos.mpr (Nat.lt_of_le_of_lt (Nat.zero_le i) hi)
  simp only [regularVertex]
  rw [distance_on_circle]
  congr 3
  by_cases h : i + 1 < n
  · rw [Nat.mod_eq_of_lt h, ← Real.cos_neg]
    congr 1
    push_cast
    field_simp
    ring_nf
  · have e : i + 1 = n := Nat.le_antisymm hi (Nat.le_of_not_lt h)
    rw [e, Nat.mod_self, ← Real.cos_two_pi_sub]
    congr 1
    rw [← e]
    push_cast
    field_simp
    ring_nf

/-- In exact arithmetic, with the real `π`, cosine, sine and square root:
`calculateVertices` of a hexagon (`n = 6`) or octagon (`n = 8`) of centre `c`
and radius `r` returns the `n` points `c + r (cos(2πi/n), sin(2πi/n))`,
`i = 0 .. n-1`; each is at the distance `|r|` from `c`, and two cyclically
consecutive ones are at the distance `|r| sqrt(2 - 2 cos(2π/n))`, the same for
the `n` pairs. -/
theorem regular_by_construction_exact (c : Point ℝ) (r : ℝ) :
    ((Hexagon.mk c r).calculateVertices Real.pi Real.cos Real.sin
        = (List.range 6).map (regularVertex Real.pi Real.cos Real.sin c r 6) ∧
      ((Hexagon.mk c r).calculateVertices Real.pi Real.cos Real.sin).length = 6 ∧
      (∀ i, i < 6 →
        ((Hexagon.mk c r).calculateVertices Real.pi Real.cos Real.sin)[i]?
          = some ⟨c.x + r * Real.cos (2 * Real.pi * i / 6),
              c.y + r * Real.sin (2 * Real.pi * i / 6)⟩) ∧
      (∀ v ∈ (Hexagon.mk c r).calculateVertices Real.pi Real.cos Real.sin,
        v.distance Real.sqrt c = |r|) ∧
      (∀ i, i < 6 → ∀ v w,
        ((Hexagon.mk c r).calculateVertices Real.pi Real.cos Real.sin)[i]? = some v →
        ((Hexagon.mk c r).calculateVertices Real.pi Real.cos Real.sin)[(i + 1) % 6]? = some w →
        v.distance Real.sqrt w = |r| * Real.sqrt (2 - 2 * Real.cos (2 * Real.pi / 6)))) ∧
    ((Octagon.mk c r).calculateVertices Real.pi Real.cos Real.sin
        = (List.range 8).map (regularVertex Real.pi Real.cos Real.sin c r 8) ∧
      ((Octagon.mk c r).calculateVertices Real.pi Real.cos Real.sin).length = 8 ∧
      (∀ i, i < 8 →
        ((Octagon.mk c r).calculateVertices Real.pi Real.cos Real.sin)[i]?
          = some ⟨c.x + r * Real.cos (2 * Real.pi * i / 8),
              c.y + r * Real.sin (2 * Real.pi * i / 8)⟩) ∧
      (∀ v ∈ (Octagon.mk c r).calculateVertices Real.pi Real.cos Real.sin,
        v.distance Real.sqrt c = |r|) ∧
      (∀ i, i < 8 → ∀ v w,
        ((Octagon.mk c r).calculateVertices Real.pi Real.cos Real.sin)[i]? = some v →
        ((Octagon.mk c r).calculateVertices Real.pi Real.cos Real.sin)[(i + 1) % 8]? = some w →
        v.distance Real.sqrt w = |r| * Real.sqrt (2 - 2 * Real.cos (2 * Real.pi / 8)))) := by
  constructor
  · have e := hexagon_calculateVertices_eq Real.pi Real.cos Real.sin (Hexagon.mk c r)
    rw [e]
    refine ⟨rfl, by simp, ?_, ?_, ?_⟩
    · intro i hi
      rw [List.getElem?_map, List.getElem?_range hi]
      simp [regularVertex]
    · intro v hv
      obtain ⟨i, _, rfl⟩ := List.mem_map.mp hv
      exact regularVertex_distance_center c r 6 i
    · intro i hi v w hv hw
      have hi2 : (i + 1) % 6 < 6 := Nat.mod_lt _ (by norm_num)
      rw [List.getElem?_map, List.getElem?_range hi] at hv
      rw [List.getElem?_map, List.getElem?_range hi2] at hw
      simp only [Option.map_some', Option.some.injEq] at hv hw
      rw [← hv, ← hw, regularVertex_distance_next c r 6 i hi]
      norm_num
  · have e := octagon_calculateVertices_eq Real.pi Real.cos Real.sin (Octagon.mk c r)
    rw [e]
    refine ⟨rfl, by simp, ?_, ?_, ?_⟩
    · intro i hi
      rw [List.getElem?_map, List.getElem?_range hi]
      simp [regularVertex]
    · intro v hv
      obtain ⟨i, _, rfl⟩ := List.mem_map.mp hv
      exact regularVertex_distance_center c r 8 i
    · intro i hi v w hv hw
      have hi2 : (i + 1) % 8 < 8 := Nat.mod_lt _ (by norm_num)
      rw [List.getElem?_map, List.getElem?_range hi] at hv
      rw [List.getElem?_map, List.getElem?_range hi2] at hw
      simp only [Option.map_some', Option.some.injEq] at hv hw
      rw [← hv, ← hw, regularVertex_distance_next c r 8 i hi]
      norm_num

/-! ## Degenerate triangles -/

end Numeric

/-! ## `double` arithmetic: the integer square root -/

theorem isqrt_step_lt (n s : Nat) (hs : 0 < s) :
    n < ((s + n / s) / 2 + 1) * ((s + n / s) / 2 + 1) := by
  have h1 : n < s * (n / s + 1) := Nat.lt_mul_div_succ n hs
  have h2 : s + n / s < 2 * ((s + n / s) / 2 + 1) := Nat.lt_mul_div_succ _ (by norm_num)
  generalize (s + n / s) / 2 = m at h2 ⊢
  generalize n / s = a at h1 h2
  have h3 : s + a + 1 ≤ 2 * (m + 1) := h2
  have h4 : 4 * (s * (a + 1)) ≤ (s + a + 1) * (s + a + 1) := by
    have : (0 : ℤ) ≤ ((s : ℤ) - (a + 1)) ^ 2 := sq_nonneg _
    zify
    nlinarith
  have h5 : (s + a + 1) * (s + a + 1) ≤ (2 * (m + 1)) * (2 * (m + 1)) := Nat.mul_le_mul h3 h3
  nlinarith

theorem isqrt_stop_le (n s : Nat) (hs : 0 < s) (h : ¬ (s + n / s) / 2 < s) : s * s ≤ n := by
  have h1 : s ≤ (s + n / s) / 2 := Nat.le_of_not_lt h
  have h2 : 2 * s ≤ s + n / s := by
    have := (Nat.le_div_iff_mul_le (by norm_num : 0 < 2)).mp h1
    omega
  have h3 : s ≤ n / s := by omega
  exact (Nat.le_div_iff_mul_le hs).mp h3

theorem isqrtLoop_spec (fuel n s : Nat) (hn : 0 < n) (hs : 0 < s) (hfuel : s ≤ fuel)
    (hlt : n < (s + 1) * (s + 1)) :
    isqrtLoop fuel n s * isqrtLoop fuel n s ≤ n ∧
      n < (isqrtLoop fuel n s + 1) * (isqrtLoop fuel n s + 1) := by
  induction fuel generalizing s with
  | zero => omega
  | succ fuel ih =>
    unfold isqrtLoop
    by_cases h : (s + n / s) / 2 < s
    · rw [if_pos h]
      have hdiv : s = 1 → 1 ≤ n / s := by
        intro h1
        subst h1
        simpa using hn
      apply ih
      · generalize n / s = a at hdiv h ⊢
        omega
      · generalize n / s = a at h ⊢
        omega
      · exact isqrt_step_lt n s hs
    · rw [if_neg h]
      exact ⟨isqrt_stop_le n s hs h, hlt⟩

/-- `isqrt n` is the integer square root of `n`. -/
theorem isqrt_spec (n : Nat) : isqrt n * isqrt n ≤ n ∧ n < (isqrt n + 1) * (isqrt n + 1) := by
  by_cases hn : n = 0
  · subst hn
    decide
  · have hpos : 0 < n := Nat.pos_of_ne_zero hn
    apply isqrtLoop_spec n n n hpos hpos (Nat.le_refl n)
    nlinarith

theorem isqrt_eq_sqrt (n : Nat) : isqrt n = Nat.sqrt n :=
  Nat.eq_sqrt.mpr (isqrt_spec n)

/-! ## `double` arithmetic: rounding -/

theorem bitLengthLoop_spec (fuel n k : Nat) (h : n ≤ fuel) :
    ∃ b, bitLengthLoop fuel n k = k + b ∧ n < 2 ^ b ∧ (n = 0 → b = 0) ∧
      (0 < n → 2 ^ b ≤ 2 * n) := by
  induction fuel generalizing n k with
  | zero =>
    have h0 : n = 0 := by omega
    subst h0
    exact ⟨0, rfl, by norm_num, fun _ => rfl, fun h => absurd h (by omega)⟩
  | succ fuel ih =>
    by_cases hn : n = 0
    · subst hn
      refine ⟨0, ?_, by norm_num, fun _ => rfl, fun h => absurd h (by omega)⟩
      simp [bitLengthLoop]
    · have h2 : n / 2 ≤ fuel := by omega
      obtain ⟨b, hb, hlt, hz, hpos⟩ := ih (n / 2) (k + 1) h2
      refine ⟨b + 1, ?_, ?_, ?_, ?_⟩
      · simp only [bitLengthLoop, if_neg hn, hb]
        omega
      · rw [pow_succ]
        omega
      · intro h0
        exact absurd h0 hn
      · intro _
        rw [pow_succ]
        by_cases h0 : n / 2 = 0
        · rw [hz h0]
          omega
        · have := hpos (by omega)
          omega

/-- The number `bitLength n` is the number of binary digits of `n`. -/
theorem bitLength_spec (n : Nat) (hn : 0 < n) :
    n < 2 ^ bitLength n ∧ 2 ^ bitLength n ≤ 2 * n := by
  obtain ⟨b, hb, hlt, _, hpos⟩ := bitLengthLoop_spec n n 0 (Nat.le_refl n)
  have e : bitLength n = b := by
    unfold bitLength
    rw [hb, Nat.zero_add]
  rw [e]
  exact ⟨hlt, hpos hn⟩

/-- The exponent that `Double.roundMagnitude` chooses leaves a quotient below
`2 ^ 53`, and not below `2 ^ 52` unless the exponent is `0`. -/
theorem roundExponent_spec (N d : Nat) (hN : 0 < N) (hd : 0 < d) (e : Nat)
    (he : e = if N / (d * 2 ^ (bitLength N - bitLength d - 53)) < 2 ^ 53
      then bitLength N - bitLength d - 53 else bitLength N - bitLength d - 53 + 1) :
    N / (d * 2 ^ e) < 2 ^ 53 ∧ (e = 0 ∨ 2 ^ 52 ≤ N / (d * 2 ^ e)) := by
  obtain ⟨hN1, hN2⟩ := bitLength_spec N hN
  obtain ⟨hd1, hd2⟩ := bitLength_spec d hd
  generalize bitLength N = bN at he hN1 hN2
  generalize bitLength d = bd at he hd1 hd2
  generalize ht : bN - bd - 53 = t at he
  have hDpos : ∀ k, 0 < d * 2 ^ k := fun k => Nat.mul_pos hd (Nat.two_pow_pos _)
  by_cases hc : N / (d * 2 ^ t) < 2 ^ 53
  · rw [if_pos hc] at he
    subst e
    refine ⟨hc, ?_⟩
    by_cases ht0 : t = 0
    · exact Or.inl ht0
    · right
      rw [Nat.le_div_iff_mul_le (hDpos t)]
      have hb : bN = bd + 53 + t := by omega
      have h1 : 2 ^ 52 * (d * 2 ^ t) < 2 ^ 52 * (2 ^ bd * 2 ^ t) :=
        Nat.mul_lt_mul_of_pos_left (Nat.mul_lt_mul_of_pos_right hd1 (Nat.two_pow_pos _))
          (by norm_num)
      have h2 : 2 * (2 ^ 52 * (2 ^ bd * 2 ^ t)) = 2 ^ bN := by
        rw [hb]
        ring
      omega
  · rw [if_neg hc] at he
    subst e
    have hc2 : 2 ^ 53 ≤ N / (d * 2 ^ t) := Nat.le_of_not_lt hc
    rw [Nat.le_div_iff_mul_le (hDpos t)] at hc2
    have hD : d * 2 ^ (t + 1) = 2 * (d * 2 ^ t) := by ring
    constructor
    · rw [Nat.div_lt_iff_lt_mul (hDpos (t + 1)), hD]
      by_cases hb : bd + 53 ≤ bN
      · have hb2 : bN = bd + 53 + t := by omega
        have h1 : 2 ^ bN = 2 ^ 53 * (2 ^ bd * 2 ^ t) := by
          rw [hb2]
          ring
        have h2 : 2 ^ 53 * (2 ^ bd * 2 ^ t) ≤ 2 ^ 53 * (2 * d * 2 ^ t) :=
          Nat.mul_le_mul_left _ (Nat.mul_le_mul_right _ hd2)
        have h3 : 2 ^ 53 * (2 * d * 2 ^ t) = 2 ^ 53 * (2 * (d * 2 ^ t)) := by ring
        omega
      · have ht0 : t = 0 := by omega
        subst ht0
        have h1 : 2 ^ bN ≤ 2 ^ (bd + 52) := Nat.pow_le_pow_right (by norm_num) (by omega)
        have h2 : 2 ^ (bd + 52) = 2 ^ 52 * 2 ^ bd := by ring
        have h3 : 2 ^ 52 * 2 ^ bd ≤ 2 ^ 52 * (2 * d) := Nat.mul_le_mul_left _ hd2
        simp only [pow_zero, Nat.mul_one] at hc2 ⊢
        omega
    · right
      rw [Nat.le_div_iff_mul_le (hDpos (t + 1)), hD]
      omega

/-- The rounding step of `Double.roundMagnitude`: the quotient, rounded to
nearest, ties to even. -/
theorem roundStep_spec (N D : Nat) (hD : 0 < D) (q : Nat)
    (hq : q = if D < 2 * (N % D) ∨ (2 * (N % D) = D ∧ N / D % 2 = 1) then N / D + 1 else N / D) :
    N / D ≤ q ∧ q ≤ N / D + 1 ∧
    2 * q * D ≤ 2 * N + D ∧ 2 * N ≤ 2 * q * D + D ∧
    ((2 * N = 2 * q * D + D ∨ 2 * N + D = 2 * q * D) → q % 2 = 0) := by
  have hdiv : D * (N / D) + N % D = N := Nat.div_add_mod N D
  have hmod : N % D < D := Nat.mod_lt N hD
  generalize N / D = q0 at hq hdiv ⊢
  generalize N % D = r at hq hdiv hmod
  have hmul : D * q0 = q0 * D := Nat.mul_comm _ _
  by_cases hc : D < 2 * r ∨ (2 * r = D ∧ q0 % 2 = 1)
  · rw [if_pos hc] at hq
    subst q
    have e1 : 2 * (q0 + 1) * D = 2 * (q0 * D) + 2 * D := by ring
    rw [e1]
    rw [hmul] at hdiv
    generalize q0 * D = P at hdiv ⊢
    refine ⟨by omega, by omega, by omega, by omega, ?_⟩
    intro h
    omega
  · rw [if_neg hc] at hq
    subst q
    have e1 : 2 * q0 * D = 2 * (q0 * D) := by ring
    rw [e1]
    rw [hmul] at hdiv
    generalize q0 * D = P at hdiv ⊢
    refine ⟨by omega, by omega, by omega, by omega, ?_⟩
    intro h
    omega

/-- The specification of `Double.roundMagnitude`: for `N, d > 0` the result
`(q, e)` has `q < 2 ^ 53`, has `2 ^ 52 ≤ q` unless `e = 0`, and `q * 2 ^ e`
is within half a unit `2 ^ e` of `N / d`, with `q` even when it is exactly
half a unit away. -/
theorem Double.roundMagnitude_spec (N d : Nat) (hN : 0 < N) (hd : 0 < d) :
    (Double.roundMagnitude N d).1 < 2 ^ 53 ∧
    ((Double.roundMagnitude N d).2 = 0 ∨ 2 ^ 52 ≤ (Double.roundMagnitude N d).1) ∧
    2 * (Double.roundMagnitude N d).1 * (d * 2 ^ (Double.roundMagnitude N d).2)
      ≤ 2 * N + d * 2 ^ (Double.roundMagnitude N d).2 ∧
    2 * N ≤ 2 * (Double.roundMagnitude N d).1 * (d * 2 ^ (Double.roundMagnitude N d).2)
      + d * 2 ^ (Double.roundMagnitude N d).2 ∧
    ((2 * N = 2 * (Double.roundMagnitude N d).1 * (d * 2 ^ (Double.roundMagnitude N d).2)
          + d * 2 ^ (Double.roundMagnitude N d).2 ∨
        2 * N + d * 2 ^ (Double.roundMagnitude N d).2
          = 2 * (Double.roundMagnitude N d).1 * (d * 2 ^ (Double.roundMagnitude N d).2)) →
      (Double.roundMagnitude N d).1 % 2 = 0) := by
  obtain ⟨e, he⟩ : ∃ e, e = if N / (d * 2 ^ (bitLength N - bitLength d - 53)) < 2 ^ 53
      then bitLength N - bitLength d - 53 else bitLength N - bitLength d - 53 + 1 := ⟨_, rfl⟩
  obtain ⟨hlt, hnorm⟩ := roundExponent_spec N d hN hd e he
  have hDpos : 0 < d * 2 ^ e := Nat.mul_pos hd (Nat.two_pow_pos _)
  obtain ⟨q, hq⟩ : ∃ q, q = if d * 2 ^ e < 2 * (N % (d * 2 ^ e)) ∨
      (2 * (N % (d * 2 ^ e)) = d * 2 ^ e ∧ N / (d * 2 ^ e) % 2 = 1)
      then N / (d * 2 ^ e) + 1 else N / (d * 2 ^ e) := ⟨_, rfl⟩
  obtain ⟨h1, h2, h3, h4, h5⟩ := roundStep_spec N (d * 2 ^ e) hDpos q hq
  have hval : Double.roundMagnitude N d = if q = 2 ^ 53 then (2 ^ 52, e + 1) else (q, e) := by
    unfold Double.roundMagnitude
    simp only [← he, ← hq]
  rw [hval]
  by_cases hq53 : q = 2 ^ 53
  · rw [if_pos hq53]
    have hD2 : d * 2 ^ (e + 1) = 2 * (d * 2 ^ e) := by ring
    have e2 : 2 * 2 ^ 52 * (d * 2 ^ (e + 1)) = 2 * q * (d * 2 ^ e) := by
      rw [hq53, hD2]
      ring
    simp only []
    rw [e2, hD2]
    generalize 2 * q * (d * 2 ^ e) = P at h3 h4 ⊢
    generalize d * 2 ^ e = D at h3 h4 hDpos ⊢
    refine ⟨by norm_num, Or.inr (Nat.le_refl _), by omega, by omega, fun _ => by norm_num⟩
  · rw [if_neg hq53]
    refine ⟨?_, ?_, h3, h4, h5⟩
    · generalize N / (d * 2 ^ e) = q0 at h1 h2 hlt
      omega
    · rcases hnorm with h0 | h52
      · exact Or.inl h0
      · exact Or.inr (Nat.le_trans h52 h1)

/-- A rounded magnitude with a full significand is within `2 ^ (-53)` of
itself from the exact quotient. -/
theorem Double.roundMagnitude_error (N d : Nat) (hN : 0 < N) (hd : 0 < d)
    (h52 : 2 ^ 52 ≤ (Double.roundMagnitude N d).1) :
    |((Double.roundMagnitude N d).1 : ℚ) * 2 ^ (Double.roundMagnitude N d).2 - (N : ℚ) / d|
      ≤ ((Double.roundMagnitude N d).1 : ℚ) * 2 ^ (Double.roundMagnitude N d).2 / 2 ^ 53 := by
  obtain ⟨_, _, hA, hB, _⟩ := Double.roundMagnitude_spec N d hN hd
  generalize (Double.roundMagnitude N d).1 = q at hA hB h52 ⊢
  generalize (Double.roundMagnitude N d).2 = e at hA hB ⊢
  have hA2 : (2 : ℚ) * q * (d * 2 ^ e) ≤ 2 * N + d * 2 ^ e := by exact_mod_cast hA
  have hB2 : (2 : ℚ) * N ≤ 2 * q * (d * 2 ^ e) + d * 2 ^ e := by exact_mod_cast hB
  have h52q : (2 : ℚ) ^ 52 ≤ q := by exact_mod_cast h52
  have hdq : (0 : ℚ) < d := by exact_mod_cast hd
  have hT : (0 : ℚ) < 2 ^ e := by positivity
  generalize (2 : ℚ) ^ e = T at hA2 hB2 hT ⊢
  generalize (q : ℚ) = Q at hA2 hB2 h52q ⊢
  generalize (d : ℚ) = D at hA2 hB2 hdq ⊢
  generalize (N : ℚ) = M at hA2 hB2 ⊢
  have hT2 : T / 2 ≤ Q * T / 2 ^ 53 := by
    rw [div_le_div_iff₀ (by norm_num) (by norm_num)]
    nlinarith
  have hV1 : M / D ≤ Q * T + T / 2 := by
    rw [div_le_iff₀ hdq]
    nlinarith
  have hV2 : Q * T - T / 2 ≤ M / D := by
    rw [le_div_iff₀ hdq]
    nlinarith
  rw [abs_le]
  constructor <;> linarith


/-- A normal result of rounding is within `2 ^ (-53)` of itself from the exact
quotient. -/
theorem Double.round_error (neg : Bool) (N d : Nat) (hd : 0 < d) (m : Int) (e : Nat)
    (h : Double.round neg N d = Double.finite m e) (hn : 2 ^ 52 ≤ m.natAbs) :
    |Double.toRat (Double.finite m e) - (if neg then -1 else 1) * ((N : ℚ) / d) / 2 ^ 1074|
      ≤ |Double.toRat (Double.finite m e)| / 2 ^ 53 := by
  unfold Double.round at h
  by_cases hN : N = 0
  · rw [if_pos hN] at h
    injection h with h1 h2
    subst h1
    simp at hn
  · rw [if_neg hN] at h
    by_cases ho : 2045 < (Double.roundMagnitude N d).2
    · rw [if_pos ho] at h
      exact Double.noConfusion h
    · rw [if_neg ho] at h
      injection h with h1 h2
      have hq : m.natAbs = (Double.roundMagnitude N d).1 := by
        rw [← h1]
        cases neg <;> simp
      have herr := Double.roundMagnitude_error N d (Nat.pos_of_ne_zero hN) hd (by rw [← hq]; exact hn)
      rw [h2] at herr
      have hpos : (0 : ℚ) ≤ ((Double.roundMagnitude N d).1 : ℚ) * 2 ^ e := by positivity
      generalize (N : ℚ) / d = V at herr ⊢
      generalize hR : ((Double.roundMagnitude N d).1 : ℚ) * 2 ^ e = R at herr hpos
      have h1074 : (0 : ℚ) < 2 ^ 1074 := by positivity
      cases neg with
      | false =>
        have hm : (m : ℚ) = ((Double.roundMagnitude N d).1 : ℚ) := by
          rw [← h1]
          simp
        have ht : Double.toRat (Double.finite m e) = R / 2 ^ 1074 := by
          simp only [Double.toRat, hm, hR]
        rw [ht]
        simp only [Bool.false_eq_true, if_false, one_mul]
        rw [← sub_div, abs_div, abs_div, abs_of_pos h1074, abs_of_nonneg hpos, div_right_comm]
        exact div_le_div_of_nonneg_right herr (le_of_lt h1074)
      | true =>
        have hm : (m : ℚ) = -((Double.roundMagnitude N d).1 : ℚ) := by
          rw [← h1]
          simp
        have ht : Double.toRat (Double.finite m e) = -(R / 2 ^ 1074) := by
          simp only [Double.toRat, hm, ← hR]
          ring
        rw [ht]
        simp only [if_true]
        have e1 : -(R / 2 ^ 1074) - -1 * V / 2 ^ 1074 = -((R - V) / 2 ^ 1074) := by ring
        rw [e1, abs_neg, abs_neg, abs_div, abs_div, abs_of_pos h1074, abs_of_nonneg hpos,
          div_right_comm]
        exact div_le_div_of_nonneg_right herr (le_of_lt h1074)

/-- A normal product is within `2 ^ (-53)` of itself from the exact product. -/
theorem Double.mul_error (x s : Double) (hn : Double.isNormal (x * s) = true) :
    (∃ m e, x = Double.finite m e) ∧ (∃ m e, s = Double.finite m e ∧ m ≠ 0) ∧
    |Double.toRat (x * s) - Double.toRat x * Double.toRat s| ≤ |Double.toRat (x * s)| / 2 ^ 53 := by
  have hmul : x * s = Double.mul x s := rfl
  rw [hmul] at hn ⊢
  cases x with
  | nan => cases s <;> simp [Double.mul, Double.isNormal] at hn
  | inf sx =>
    cases s with
    | finite m2 e2 =>
      by_cases h0 : m2 = 0 <;> simp [Double.mul, Double.isNormal, h0] at hn
    | inf s2 => simp [Double.mul, Double.isNormal] at hn
    | nan => simp [Double.mul, Double.isNormal] at hn
  | finite m1 e1 =>
    cases s with
    | nan => simp [Double.mul, Double.isNormal] at hn
    | inf s2 =>
      by_cases h0 : m1 = 0 <;> simp [Double.mul, Double.isNormal, h0] at hn
    | finite m2 e2 =>
      have hm2 : m2 ≠ 0 := by
        intro h0
        subst h0
        simp [Double.mul, Double.round, Double.isNormal] at hn
      refine ⟨⟨m1, e1, rfl⟩, ⟨m2, e2, rfl, hm2⟩, ?_⟩
      simp only [Double.mul] at hn ⊢
      generalize hr : Double.round (decide (m1 * m2 < 0)) ((m1 * m2).natAbs * 2 ^ (e1 + e2))
        (2 ^ 1074) = r at hn ⊢
      cases r with
      | nan => simp [Double.isNormal] at hn
      | inf sr => simp [Double.isNormal] at hn
      | finite m e =>
        have hn2 : 2 ^ 52 ≤ m.natAbs := by simpa [Double.isNormal] using hn
        have herr := Double.round_error _ _ _ (by positivity) m e hr hn2
        have hval : (if decide (m1 * m2 < 0) = true then (-1 : ℚ) else 1)
            * ((((m1 * m2).natAbs * 2 ^ (e1 + e2) : Nat) : ℚ) / ((2 ^ 1074 : Nat) : ℚ)) / 2 ^ 1074
            = Double.toRat (Double.finite m1 e1) * Double.toRat (Double.finite m2 e2) := by
          simp only [Double.toRat]
          have habs : (((m1 * m2).natAbs : Nat) : ℚ) = |((m1 * m2 : Int) : ℚ)| := by
            rw [Nat.cast_natAbs, Int.cast_abs]
          simp only [Nat.cast_mul, Nat.cast_pow, Nat.cast_ofNat]
          rw [habs]
          by_cases hlt : m1 * m2 < 0
          · have hq : ((m1 * m2 : Int) : ℚ) < 0 := by exact_mod_cast hlt
            rw [abs_of_neg hq]
            simp only [hlt, decide_True, if_true]
            push_cast
            ring
          · have hq : (0 : ℚ) ≤ ((m1 * m2 : Int) : ℚ) := by exact_mod_cast (Int.not_lt.mp hlt)
            rw [abs_of_nonneg hq]
            simp only [hlt, decide_False, Bool.false_eq_true, if_false]
            push_cast
            ring
        rw [hval] at herr
        exact herr

/-- A normal quotient is within `2 ^ (-53)` of itself from the exact
quotient. -/
theorem Double.div_error (m1 : Int) (e1 : Nat) (m2 : Int) (e2 : Nat) (hm2 : m2 ≠ 0)
    (hn : Double.isNormal (Double.finite m1 e1 / Double.finite m2 e2) = true) :
    |Double.toRat (Double.finite m1 e1 / Double.finite m2 e2)
        - Double.toRat (Double.finite m1 e1) / Double.toRat (Double.finite m2 e2)|
      ≤ |Double.toRat (Double.finite m1 e1 / Double.finite m2 e2)| / 2 ^ 53 := by
  have hdiv : Double.finite m1 e1 / Double.finite m2 e2
      = Double.round (xor (decide (m1 < 0)) (decide (m2 < 0)))
        (m1.natAbs * 2 ^ (e1 + 1074)) (m2.natAbs * 2 ^ e2) := by
    show Double.div (Double.finite m1 e1) (Double.finite m2 e2) = _
    simp only [Double.div, if_neg hm2]
  rw [hdiv] at hn ⊢
  generalize hr : Double.round (xor (decide (m1 < 0)) (decide (m2 < 0)))
    (m1.natAbs * 2 ^ (e1 + 1074)) (m2.natAbs * 2 ^ e2) = r at hn ⊢
  cases r with
  | nan => simp [Double.isNormal] at hn
  | inf sr => simp [Double.isNormal] at hn
  | finite m e =>
    have hn2 : 2 ^ 52 ≤ m.natAbs := by simpa [Double.isNormal] using hn
    have hdpos : 0 < m2.natAbs * 2 ^ e2 :=
      Nat.mul_pos (Int.natAbs_pos.mpr hm2) (Nat.two_pow_pos e2)
    have herr := Double.round_error _ _ _ hdpos m e hr hn2
    have hval : (if xor (decide (m1 < 0)) (decide (m2 < 0)) = true then (-1 : ℚ) else 1)
        * (((m1.natAbs * 2 ^ (e1 + 1074) : Nat) : ℚ) / ((m2.natAbs * 2 ^ e2 : Nat) : ℚ)) / 2 ^ 1074
        = Double.toRat (Double.finite m1 e1) / Double.toRat (Double.finite m2 e2) := by
      simp only [Double.toRat]
      have hq2 : ((m2 : Int) : ℚ) ≠ 0 := by exact_mod_cast hm2
      have habs1 : ((m1.natAbs : Nat) : ℚ) = |((m1 : Int) : ℚ)| := by
        rw [Nat.cast_natAbs, Int.cast_abs]
      have habs2 : ((m2.natAbs : Nat) : ℚ) = |((m2 : Int) : ℚ)| := by
        rw [Nat.cast_natAbs, Int.cast_abs]
      push_cast
      rw [habs1, habs2]
      have hp : ((2 : ℚ) ^ (e1 + 1074)) = 2 ^ e1 * 2 ^ 1074 := pow_add _ _ _
      rw [hp]
      have h1074 : (2 : ℚ) ^ 1074 ≠ 0 := by positivity
      have he2 : (2 : ℚ) ^ e2 ≠ 0 := by positivity
      by_cases h1 : m1 < 0
      · have hq1 : ((m1 : Int) : ℚ) < 0 := by exact_mod_cast h1
        rw [abs_of_neg hq1]
        by_cases h2 : m2 < 0
        · have hq2n : ((m2 : Int) : ℚ) < 0 := by exact_mod_cast h2
          rw [abs_of_neg hq2n]
          simp only [h1, h2, decide_True, Bool.xor_self, Bool.false_eq_true, if_false]
          field_simp
          ring
        · have hq2p : (0 : ℚ) ≤ ((m2 : Int) : ℚ) := by exact_mod_cast (Int.not_lt.mp h2)
          rw [abs_of_nonneg hq2p]
          simp only [h1, h2, decide_True, decide_False, Bool.xor_false, if_true]
          field_simp
          ring
      · have hq1 : (0 : ℚ) ≤ ((m1 : Int) : ℚ) := by exact_mod_cast (Int.not_lt.mp h1)
        rw [abs_of_nonneg hq1]
        by_cases h2 : m2 < 0
        · have hq2n : ((m2 : Int) : ℚ) < 0 := by exact_mod_cast h2
          rw [abs_of_neg hq2n]
          simp only [h1, h2, decide_True, decide_False, Bool.false_xor, if_true]
          field_simp
          ring
        · have hq2p : (0 : ℚ) ≤ ((m2 : Int) : ℚ) := by exact_mod_cast (Int.not_lt.mp h2)
          rw [abs_of_nonneg hq2p]
          simp only [h1, h2, decide_False, Bool.xor_self, Bool.false_eq_true, if_false]
          field_simp
          ring
    rw [hval] at herr
    exact herr


/-- A product by `s` followed by the division by `s`, both with a normal
result, returns a number within `2 ^ (-51)` of `x`, relative to `x`: twice the
machine epsilon `2 ^ (-52)`. -/
theorem Double.mul_div_error (x s : Double) (hy : Double.isNormal (x * s) = true)
    (hr : Double.isNormal (x * s / s) = true) :
    |Double.toRat (x * s / s) - Double.toRat x| ≤ |Double.toRat x| / 2 ^ 51 := by
  obtain ⟨_, ⟨m2, e2, hs, hm2⟩, hmul⟩ := Double.mul_error x s hy
  generalize hY : x * s = y at hy hr hmul ⊢
  cases y with
  | nan => simp [Double.isNormal] at hy
  | inf sy => simp [Double.isNormal] at hy
  | finite my ey =>
    subst hs
    have hdiv := Double.div_error my ey m2 e2 hm2 hr
    have hb : Double.toRat (Double.finite m2 e2) ≠ 0 := by
      simp only [Double.toRat]
      have hq2 : ((m2 : Int) : ℚ) ≠ 0 := by exact_mod_cast hm2
      positivity
    generalize Double.toRat (Double.finite my ey / Double.finite m2 e2) = R at hdiv ⊢
    generalize Double.toRat (Double.finite my ey) = Y at hdiv hmul
    generalize Double.toRat (Double.finite m2 e2) = b at hdiv hmul hb
    generalize Double.toRat x = a at hmul ⊢
    have hbpos : 0 < |b| := abs_pos.mpr hb
    have hW : |Y / b - a| ≤ |Y / b| / 2 ^ 53 := by
      have e1 : Y / b - a = (Y - a * b) / b := by
        field_simp
        ring
      rw [e1, abs_div, abs_div, div_right_comm]
      exact div_le_div_of_nonneg_right hmul (le_of_lt hbpos)
    generalize Y / b = W at hdiv hW
    have t1 : |W| ≤ |a| + |W - a| := by
      have := abs_add (W - a) a
      rw [sub_add_cancel] at this
      linarith
    have t2 : |R| ≤ |W| + |R - W| := by
      have := abs_add (R - W) W
      rw [sub_add_cancel] at this
      linarith
    have t3 : |R - a| ≤ |R - W| + |W - a| := by
      have := abs_add (R - W) (W - a)
      rw [sub_add_sub_cancel] at this
      exact this
    have ha : 0 ≤ |a| := abs_nonneg a
    have hWn : 0 ≤ |W| := abs_nonneg W
    have hRn : 0 ≤ |R| := abs_nonneg R
    generalize |R - a| = dRA at t3 ⊢
    generalize |R - W| = dRW at t2 t3 hdiv
    generalize |W - a| = dWA at t1 t3 hW
    generalize |a| = An at t1 ha ⊢
    generalize |W| = Wn at t1 t2 hW hWn
    generalize |R| = Rn at t2 hdiv hRn
    norm_num at hW hdiv ⊢
    linarith

/-! ## `double` arithmetic: values -/

set_option maxRecDepth 100000

/-- Some values of the arithmetic of `double`: `0.1 + 0.2`, an absorbed
summand, an overflow, a correctly rounded square root, the literals `0.1`,
`0`, `0.0`, `1e-6` and the constant `M_PI`. -/
theorem Double.values :
    (0.1 : Double) + 0.2 = 0.30000000000000004 ∧
    (1e16 : Double) + 1 = 1e16 ∧
    (1e308 : Double) * 10 = Double.inf false ∧
    Double.sqrt 2 = 1.4142135623730951 ∧
    (0.1 : Double) = Double.finite 7205759403792794 1018 ∧
    (0 : Double) = Double.finite 0 0 ∧
    (0.0 : Double) = Double.finite 0 0 ∧
    (1e-6 : Double) = Double.finite 4722366482869645 1002 ∧
    Double.M_PI = Double.finite 7074237752028440 1023 := by
  decide!

theorem Double.zero_eq : (0 : Double) = Double.finite 0 0 := by decide!

/-! ## `double` arithmetic: the sign -/

/-- The comparison `==` of `double` holds between a number and itself, and
fails for NaN. -/
theorem Double.eq_self_iff (x : Double) : Double.eq x x = true ↔ x ≠ Double.nan := by
  cases x <;> simp [Double.eq]

theorem Double.round_zero (neg : Bool) (d : Nat) : Double.round neg 0 d = Double.finite 0 0 := by
  simp [Double.round]

theorem Double.neg_round (neg : Bool) (N d : Nat) :
    Double.neg (Double.round neg N d) = Double.round (!neg) N d := by
  unfold Double.round
  by_cases hN : N = 0
  · rw [if_pos hN, if_pos hN]
    rfl
  · rw [if_neg hN, if_neg hN]
    by_cases he : 2045 < (Double.roundMagnitude N d).2
    · rw [if_pos he, if_pos he]
      rfl
    · rw [if_neg he, if_neg he]
      cases neg <;> simp [Double.neg]

theorem Double.neg_neg (a : Double) : Double.neg (Double.neg a) = a := by
  cases a <;> simp [Double.neg]

theorem Double.abs_neg (a : Double) : Double.abs (Double.neg a) = Double.abs a := by
  cases a <;> simp [Double.neg, Double.abs]

theorem Double.add_comm (a b : Double) : Double.add a b = Double.add b a := by
  cases a with
  | finite m1 e1 =>
    cases b with
    | finite m2 e2 =>
      simp only [Double.add]
      rw [Nat.min_comm e2 e1, Int.add_comm (m2 * _)]
    | inf s => rfl
    | nan => rfl
  | inf s1 =>
    cases b with
    | finite m2 e2 => rfl
    | inf s2 => cases s1 <;> cases s2 <;> rfl
    | nan => rfl
  | nan => cases b <;> rfl

theorem Double.round_sign (s1 s2 : Bool) (N d : Nat) (h : N ≠ 0 → s1 = s2) :
    Double.round s1 N d = Double.round s2 N d := by
  by_cases hN : N = 0
  · subst hN
    rw [Double.round_zero, Double.round_zero]
  · rw [h hN]

theorem Int.decide_neg_lt (z : Int) (hz : z ≠ 0) : decide (-z < 0) = !decide (z < 0) := by
  by_cases h : z < 0
  · have : ¬ (-z < 0) := by omega
    simp [h, this]
  · have : -z < 0 := by omega
    simp [h, this]

theorem Double.add_neg_neg (a b : Double) :
    Double.add (Double.neg a) (Double.neg b) = Double.neg (Double.add a b) := by
  cases a with
  | finite m1 e1 =>
    cases b with
    | finite m2 e2 =>
      show Double.add (Double.finite (-m1) e1) (Double.finite (-m2) e2)
        = Double.neg (Double.add (Double.finite m1 e1) (Double.finite m2 e2))
      simp only [Double.add]
      rw [Double.neg_round]
      have e : -m1 * 2 ^ (e1 - min e1 e2) + -m2 * 2 ^ (e2 - min e1 e2)
          = -(m1 * 2 ^ (e1 - min e1 e2) + m2 * 2 ^ (e2 - min e1 e2)) := by ring
      rw [e, Int.natAbs_neg]
      apply Double.round_sign
      intro hN
      apply Int.decide_neg_lt
      intro h0
      apply hN
      rw [h0]
      simp
    | inf s => rfl
    | nan => rfl
  | inf s1 =>
    cases b with
    | finite m2 e2 => rfl
    | inf s2 => cases s1 <;> cases s2 <;> rfl
    | nan => rfl
  | nan => cases b <;> rfl

theorem Double.sub_eq_neg_sub (a b : Double) : Double.sub a b = Double.neg (Double.sub b a) := by
  unfold Double.sub
  rw [← Double.add_neg_neg, Double.neg_neg, Double.add_comm]

theorem Double.mul_neg (a b : Double) : Double.mul a (Double.neg b) = Double.neg (Double.mul a b) := by
  cases a with
  | finite m1 e1 =>
    cases b with
    | finite m2 e2 =>
      show Double.mul (Double.finite m1 e1) (Double.finite (-m2) e2)
        = Double.neg (Double.mul (Double.finite m1 e1) (Double.finite m2 e2))
      simp only [Double.mul]
      rw [Double.neg_round, Int.mul_neg, Int.natAbs_neg]
      apply Double.round_sign
      intro hN
      apply Int.decide_neg_lt
      intro h0
      apply hN
      rw [h0]
      simp
    | inf s =>
      show Double.mul (Double.finite m1 e1) (Double.inf (!s))
        = Double.neg (Double.mul (Double.finite m1 e1) (Double.inf s))
      simp only [Double.mul]
      by_cases h : m1 = 0
      · rw [if_pos h, if_pos h]
        rfl
      · rw [if_neg h, if_neg h]
        cases s <;> cases decide (m1 < 0) <;> rfl
    | nan => rfl
  | inf s1 =>
    cases b with
    | finite m2 e2 =>
      show Double.mul (Double.inf s1) (Double.finite (-m2) e2)
        = Double.neg (Double.mul (Double.inf s1) (Double.finite m2 e2))
      simp only [Double.mul]
      by_cases h : m2 = 0
      · subst h
        simp [Double.neg]
      · have h2 : -m2 ≠ 0 := by omega
        rw [if_neg h, if_neg h2, Int.decide_neg_lt m2 h]
        cases s1 <;> cases decide (m2 < 0) <;> rfl
    | inf s2 => cases s1 <;> cases s2 <;> rfl
    | nan => rfl
  | nan => cases b <;> rfl

theorem Double.neg_div (a c : Double) : Double.div (Double.neg a) c = Double.neg (Double.div a c) := by
  cases a with
  | finite m1 e1 =>
    cases c with
    | finite m2 e2 =>
      show Double.div (Double.finite (-m1) e1) (Double.finite m2 e2)
        = Double.neg (Double.div (Double.finite m1 e1) (Double.finite m2 e2))
      simp only [Double.div]
      by_cases h2 : m2 = 0
      · rw [if_pos h2, if_pos h2]
        by_cases h1 : m1 = 0
        · subst h1
          simp [Double.neg]
        · have h1n : -m1 ≠ 0 := by omega
          rw [if_neg h1, if_neg h1n, Int.decide_neg_lt m1 h1]
          rfl
      · rw [if_neg h2, if_neg h2, Double.neg_round, Int.natAbs_neg]
        apply Double.round_sign
        intro hN
        have h1 : m1 ≠ 0 := by
          intro h0
          apply hN
          rw [h0]
          simp
        rw [Int.decide_neg_lt m1 h1]
        cases decide (m1 < 0) <;> cases decide (m2 < 0) <;> rfl
    | inf s =>
      show Double.div (Double.finite (-m1) e1) (Double.inf s)
        = Double.neg (Double.div (Double.finite m1 e1) (Double.inf s))
      simp [Double.div, Double.neg]
    | nan => rfl
  | inf s1 =>
    cases c with
    | finite m2 e2 =>
      show Double.div (Double.inf (!s1)) (Double.finite m2 e2)
        = Double.neg (Double.div (Double.inf s1) (Double.finite m2 e2))
      simp only [Double.div, Double.neg]
      cases s1 <;> cases decide (m2 < 0) <;> rfl
    | inf s2 => rfl
    | nan => rfl
  | nan => cases c <;> rfl

/-- Exchanging the first two vertices does not change the `double` that
`area()` returns. -/
theorem Triangle.area_double_swap (a b c : Point Double) :
    (Triangle.mk ![b, a, c]).area_double = (Triangle.mk ![a, b, c]).area_double := by
  show Double.abs (Double.div (Double.add (Double.add (Double.mul b.x (Double.sub a.y c.y))
        (Double.mul a.x (Double.sub c.y b.y))) (Double.mul c.x (Double.sub b.y a.y))) 2.0)
    = Double.abs (Double.div (Double.add (Double.add (Double.mul a.x (Double.sub b.y c.y))
        (Double.mul b.x (Double.sub c.y a.y))) (Double.mul c.x (Double.sub a.y b.y))) 2.0)
  rw [Double.sub_eq_neg_sub a.y c.y, Double.sub_eq_neg_sub c.y b.y, Double.sub_eq_neg_sub b.y a.y,
    Double.mul_neg, Double.mul_neg, Double.mul_neg, Double.add_neg_neg, Double.add_neg_neg,
    Double.neg_div, Double.abs_neg,
    Double.add_comm (Double.mul b.x (Double.sub c.y a.y)) (Double.mul a.x (Double.sub b.y c.y))]

/-! ## `Point<double>`: multiplication followed by division -/

theorem Double.zero_div (e1 : Nat) (m2 : Int) (e2 : Nat) (hm2 : m2 ≠ 0) :
    Double.div (Double.finite 0 e1) (Double.finite m2 e2) = Double.finite 0 0 := by
  simp only [Double.div, if_neg hm2, Int.natAbs_zero, Nat.zero_mul]
  exact Double.round_zero _ _

/-- A zero times a finite nonzero `s`, divided by `s`, is zero. -/
theorem Double.zero_mul_div (e : Nat) (m2 : Int) (e2 : Nat) (hm2 : m2 ≠ 0) :
    Double.finite 0 e * Double.finite m2 e2 / Double.finite m2 e2 = Double.finite 0 0 := by
  show Double.div (Double.mul (Double.finite 0 e) (Double.finite m2 e2)) (Double.finite m2 e2)
    = Double.finite 0 0
  have h1 : Double.mul (Double.finite 0 e) (Double.finite m2 e2) = Double.finite 0 0 := by
    simp only [Double.mul, Int.zero_mul, Int.natAbs_zero, Nat.zero_mul]
    exact Double.round_zero _ _
  rw [h1]
  exact Double.zero_div 0 m2 e2 hm2

/-- C15, as stated, fails in `double` arithmetic: `((0.1, 0) * 0.1) / 0.1`
does not throw and is the point `(0.10000000000000002, 0)`, which is not `==`
to `(0.1, 0)`; and `((1e308, 0) * 10) / 10` is the point `(+inf, 0)`, the
product having overflowed. -/
theorem C15_mul_then_div_counterexample :
    ((Point.mk (0.1 : Double) 0).operator_mul_double 0.1).operator_div_double 0.1
      = Except.ok ⟨0.10000000000000002, 0⟩ ∧
    Point.operator_eq_double ⟨0.10000000000000002, 0⟩ ⟨0.1, 0⟩ = false ∧
    ((Point.mk (1e308 : Double) 0).operator_mul_double 10).operator_div_double 10
      = Except.ok ⟨Double.inf false, 0⟩ ∧
    Point.operator_eq_double ⟨Double.inf false, 0⟩ ⟨1e308, 0⟩ = false := by
  refine ⟨?_, by decide!, ?_, by decide!⟩
  · unfold Point.operator_div_double
    rw [if_neg (by decide!)]
    exact congrArg Except.ok (by decide!)
  · unfold Point.operator_div_double
    rw [if_neg (by decide!)]
    exact congrArg Except.ok (by decide!)

/-- C15, amended: for a nonzero scalar `s`, `(p * s) / s` does not throw, in
exact arithmetic and in `double` arithmetic; in exact arithmetic it is the
point `p`, also in the sense of `operator==`; in `double` arithmetic it is the
point of the two rounded quotients of the rounded products, and a coordinate
whose product and quotient are both normal numbers (no overflow, no
underflow) differs from the coordinate of `p` by at most `2 ^ (-51)` times
its magnitude, twice the machine epsilon; a zero coordinate stays zero for a
finite `s`. -/
theorem C15_mul_then_div {α : Type} [LinearOrderedField α] (p : Point α) (s : α) (hs : s ≠ 0)
    (pd : Point Double) (sd : Double) (hsd : Double.eq sd 0 = false) :
    ((p.operator_mul s).operator_div s = Except.ok p ∧
      ∃ q, (p.operator_mul s).operator_div s = Except.ok q ∧ q.operator_eq p = true) ∧
    (pd.operator_mul_double sd).operator_div_double sd
      = Except.ok ⟨pd.x * sd / sd, pd.y * sd / sd⟩ ∧
    (Double.isNormal (pd.x * sd) = true → Double.isNormal (pd.x * sd / sd) = true →
      |Double.toRat (pd.x * sd / sd) - Double.toRat pd.x| ≤ |Double.toRat pd.x| / 2 ^ 51) ∧
    (Double.isNormal (pd.y * sd) = true → Double.isNormal (pd.y * sd / sd) = true →
      |Double.toRat (pd.y * sd / sd) - Double.toRat pd.y| ≤ |Double.toRat pd.y| / 2 ^ 51) ∧
    (∀ (e : Nat) (m2 : Int) (e2 : Nat), m2 ≠ 0 →
      Double.finite 0 e * Double.finite m2 e2 / Double.finite m2 e2 = Double.finite 0 0) := by
  refine ⟨Point.mul_then_div_exact p s hs, ?_, Double.mul_div_error pd.x sd,
    Double.mul_div_error pd.y sd, Double.zero_mul_div⟩
  unfold Point.operator_div_double
  rw [if_neg (by rw [hsd]; exact Bool.false_ne_true)]
  rfl

/-- Witness of C15: `((1/3, -5) * 7) / 7 = (1/3, -5)` in exact arithmetic;
`((0.1, 0) * 0.1) / 0.1` does not throw in `double` arithmetic, the product
`0.1 * 0.1` and the quotient `0.1 * 0.1 / 0.1` are normal, and the quotient is
within `2 ^ (-51)` of `0.1`, relative to it. -/
theorem C15_mul_then_div_witness :
    ((7 : ℚ) ≠ 0 ∧ Double.eq 0.1 0 = false ∧ Double.isNormal ((0.1 : Double) * 0.1) = true ∧
      Double.isNormal ((0.1 : Double) * 0.1 / 0.1) = true) ∧
    ((Point.mk (1 / 3 : ℚ) (-5)).operator_mul 7).operator_div 7
      = Except.ok (Point.mk (1 / 3 : ℚ) (-5)) ∧
    ((Point.mk (0.1 : Double) 0).operator_mul_double 0.1).operator_div_double 0.1
      = Except.ok ⟨(0.1 : Double) * 0.1 / 0.1, (0 : Double) * 0.1 / 0.1⟩ ∧
    |Double.toRat ((0.1 : Double) * 0.1 / 0.1) - Double.toRat (0.1 : Double)|
      ≤ |Double.toRat (0.1 : Double)| / 2 ^ 51 :=
  ⟨⟨by decide, by decide!, by decide!, by decide!⟩,
    (C15_mul_then_div (Point.mk (1 / 3 : ℚ) (-5)) 7 (by decide) (Point.mk (0.1 : Double) 0) 0.1
      (by decide!)).1.1,
    (C15_mul_then_div (Point.mk (1 / 3 : ℚ) (-5)) 7 (by decide) (Point.mk (0.1 : Double) 0) 0.1
      (by decide!)).2.1,
    (C15_mul_then_div (Point.mk (1 / 3 : ℚ) (-5)) 7 (by decide) (Point.mk (0.1 : Double) 0) 0.1
      (by decide!)).2.2.1 (by decide!) (by decide!)⟩

/-! ## `Triangle<double>::area` and the order of the vertices -/

/-- C7, as stated, fails in `double` arithmetic: for `a = (0.1, 0.1)`,
`b = (0.1, 0.2)`, `c = (0.7, 0.3)` the orderings `a, b, c` and `a, c, b` have
the areas `0.029999999999999995` and `0.029999999999999992`, which are not
`==`. -/
theorem C7_triangle_area_orderings_counterexample :
    (Triangle.mk ![(⟨0.1, 0.1⟩ : Point Double), ⟨0.1, 0.2⟩, ⟨0.7, 0.3⟩]).area_double
      = 0.029999999999999995 ∧
    (Triangle.mk ![(⟨0.1, 0.1⟩ : Point Double), ⟨0.7, 0.3⟩, ⟨0.1, 0.2⟩]).area_double
      = 0.029999999999999992 ∧
    Double.eq
      (Triangle.mk ![(⟨0.1, 0.1⟩ : Point Double), ⟨0.7, 0.3⟩, ⟨0.1, 0.2⟩]).area_double
      (Triangle.mk ![(⟨0.1, 0.1⟩ : Point Double), ⟨0.1, 0.2⟩, ⟨0.7, 0.3⟩]).area_double
      = false := by
  decide!

/-- C7, amended: in exact arithmetic the six orderings of `a, b, c` give the
same `area()`; in `double` arithmetic exchanging the first two stored vertices
gives the same `double`. -/
theorem C7_triangle_area_orderings {α : Type} [LinearOrderedField α] (a b c : Point α)
    (ad bd cd : Point Double) :
    ((Triangle.mk ![a, c, b]).area = (Triangle.mk ![a, b, c]).area ∧
      (Triangle.mk ![b, a, c]).area = (Triangle.mk ![a, b, c]).area ∧
      (Triangle.mk ![b, c, a]).area = (Triangle.mk ![a, b, c]).area ∧
      (Triangle.mk ![c, a, b]).area = (Triangle.mk ![a, b, c]).area ∧
      (Triangle.mk ![c, b, a]).area = (Triangle.mk ![a, b, c]).area) ∧
    (Triangle.mk ![bd, ad, cd]).area_double = (Triangle.mk ![ad, bd, cd]).area_double :=
  ⟨Triangle.area_orderings_exact a b c, Triangle.area_double_swap ad bd cd⟩

/-! ## `area()` in `double` arithmetic: the sign -/

/-- A result of rounding is zero, or infinite with the sign given, or finite
with the sign given. -/
theorem Double.round_cases (neg : Bool) (N d : Nat) :
    Double.round neg N d = Double.finite 0 0 ∨ Double.round neg N d = Double.inf neg ∨
      ∃ (q e : Nat), Double.round neg N d = Double.finite (if neg then -(q : Int) else q) e := by
  unfold Double.round
  by_cases hN : N = 0
  · left
    rw [if_pos hN]
  · rw [if_neg hN]
    by_cases he : 2045 < (Double.roundMagnitude N d).2
    · right
      left
      rw [if_pos he]
    · right
      right
      rw [if_neg he]
      exact ⟨_, _, rfl⟩

theorem Double.le_zero_finite (m : Int) (e : Nat) (h : 0 ≤ m) :
    Double.le (Double.finite 0 0) (Double.finite m e) = true := by
  simp only [Double.le, decide_eq_true_eq]
  positivity

theorem Double.le_zero_round (N d : Nat) :
    Double.le (Double.finite 0 0) (Double.round false N d) = true := by
  rcases Double.round_cases false N d with h | h | ⟨q, e, h⟩
  · rw [h]
    exact Double.le_zero_finite 0 0 (Int.le_refl 0)
  · rw [h]
    rfl
  · rw [h]
    exact Double.le_zero_finite _ e (by simp)

/-- The value of `std::abs` is NaN or not below zero. -/
theorem Double.abs_nonneg (x : Double) :
    Double.abs x = Double.nan ∨ Double.le 0 (Double.abs x) = true := by
  rw [Double.zero_eq]
  cases x with
  | finite m e =>
    right
    exact Double.le_zero_finite _ e (Int.ofNat_nonneg _)
  | inf s =>
    right
    rfl
  | nan =>
    left
    rfl

/-- For a finite positive `c`, the value of `(c * x) * x` is not below zero,
unless `x` is NaN. -/
theorem Double.mul_mul_self_nonneg (mc : Int) (ec : Nat) (hc : 0 < mc) (x : Double)
    (hx : x ≠ Double.nan) :
    Double.le 0 (Double.finite mc ec * x * x) = true := by
  rw [Double.zero_eq]
  cases x with
  | nan => exact absurd rfl hx
  | inf s =>
    have hne : mc ≠ 0 := by omega
    have hneg : decide (mc < 0) = false := by
      simp only [decide_eq_false_iff_not]
      omega
    show Double.le (Double.finite 0 0)
      (Double.mul (Double.mul (Double.finite mc ec) (Double.inf s)) (Double.inf s)) = true
    simp only [Double.mul, if_neg hne, hneg]
    cases s <;> rfl
  | finite m e =>
    show Double.le (Double.finite 0 0)
      (Double.mul (Double.mul (Double.finite mc ec) (Double.finite m e)) (Double.finite m e))
      = true
    have hsign : decide (mc * m < 0) = decide (m < 0) := by
      by_cases hm : m < 0
      · have : mc * m < 0 := Int.mul_neg_of_pos_of_neg hc hm
        simp [hm, this]
      · have : ¬ (mc * m < 0) := by
          have := Int.mul_nonneg (Int.le_of_lt hc) (Int.not_lt.mp hm)
          omega
        simp [hm, this]
    have hy : Double.mul (Double.finite mc ec) (Double.finite m e)
        = Double.round (decide (m < 0)) ((mc * m).natAbs * 2 ^ (ec + e)) (2 ^ 1074) := by
      simp only [Double.mul, hsign]
    rw [hy]
    rcases Double.round_cases (decide (m < 0)) ((mc * m).natAbs * 2 ^ (ec + e)) (2 ^ 1074)
      with h | h | ⟨q, e2, h⟩
    · rw [h]
      simp only [Double.mul, Int.zero_mul, Int.natAbs_zero, Nat.zero_mul]
      rw [Double.round_zero]
      exact Double.le_zero_finite 0 0 (Int.le_refl 0)
    · rw [h]
      by_cases hm0 : m = 0
      · subst hm0
        have hz : Double.round (decide ((0 : Int) < 0)) ((mc * 0).natAbs * 2 ^ (ec + e)) (2 ^ 1074)
            = Double.finite 0 0 := by
          simp [Double.round]
        rw [hz] at h
        exact Double.noConfusion h
      · simp only [Double.mul, if_neg hm0]
        cases decide (m < 0) <;> rfl
    · rw [h]
      simp only [Double.mul]
      have hnn : ¬ ((if decide (m < 0) = true then -(q : Int) else (q : Int)) * m < 0) := by
        by_cases hm : m < 0
        · simp only [hm, decide_True, if_true]
          have : 0 ≤ -(q : Int) * m := by
            have h1 : (0 : Int) ≤ q := Int.ofNat_nonneg q
            nlinarith
          omega
        · simp only [hm, decide_False, Bool.false_eq_true, if_false]
          have : 0 ≤ (q : Int) * m := Int.mul_nonneg (Int.ofNat_nonneg q) (Int.not_lt.mp hm)
          omega
      rw [decide_eq_false hnn]
      exact Double.le_zero_round _ _

/-- A finite nonzero factor does not turn a number into NaN. -/
theorem Double.mul_finite_ne_nan (x : Double) (m : Int) (e : Nat) (hm : m ≠ 0)
    (hx : x ≠ Double.nan) : x * Double.finite m e ≠ Double.nan := by
  cases x with
  | nan => exact absurd rfl hx
  | inf s =>
    show Double.mul (Double.inf s) (Double.finite m e) ≠ Double.nan
    simp [Double.mul, hm]
  | finite m1 e1 =>
    show Double.mul (Double.finite m1 e1) (Double.finite m e) ≠ Double.nan
    simp only [Double.mul]
    rcases Double.round_cases (decide (m1 * m < 0)) ((m1 * m).natAbs * 2 ^ (e1 + e))
      (2 ^ 1074) with h | h | ⟨q, e2, h⟩ <;> rw [h] <;> exact Double.noConfusion

/-- The constants of the two closed-form areas in `double` arithmetic, and the
areas of the hexagon of radius `2` and of the octagon of radius `1`. -/
theorem area_double_values :
    (3 * Double.sqrt 3.0 / 2.0 : Double) = Double.finite 5850347528665472 1023 ∧
    (2 * (1 + Double.sqrt 2) : Double) = Double.finite 5436325649948134 1024 ∧
    Double.sqrt (2 - Double.sqrt 2) = Double.finite 6893811853601122 1021 ∧
    (Hexagon.mk (⟨0, 0⟩ : Point Double) 2).area_double = 10.392304845413264 ∧
    (Octagon.mk (⟨0, 0⟩ : Point Double) 1).area_double = 2.8284271247461894 := by
  decide!

theorem hexagon_area_double_nonneg (c : Point Double) (r : Double) (hr : r ≠ Double.nan) :
    Double.le 0 (Hexagon.mk c r).area_double = true := by
  show Double.le 0 ((3 * Double.sqrt 3.0 / 2.0 : Double) * r * r) = true
  rw [area_double_values.1]
  exact Double.mul_mul_self_nonneg _ _ (by decide) r hr

theorem octagon_area_double_nonneg (c : Point Double) (r : Double) (hr : r ≠ Double.nan) :
    Double.le 0 (Octagon.mk c r).area_double = true := by
  show Double.le 0 ((2 * (1 + Double.sqrt 2) : Double) * (r * Double.sqrt (2 - Double.sqrt 2))
    * (r * Double.sqrt (2 - Double.sqrt 2))) = true
  rw [area_double_values.2.1, area_double_values.2.2.1]
  exact Double.mul_mul_self_nonneg _ _ (by decide) _
    (Double.mul_finite_ne_nan r _ _ (by decide) hr)

/-- C13, as stated, fails in `double` arithmetic: the products in `area()` of
the triangle `(1e160, 0), (1e160, 1e150), (1e160, -1e150)` overflow, `area()`
is NaN, which is not `>= 0`; `isRegular()` of this triangle is true. -/
theorem C13_area_nonneg_counterexample :
    (Triangle.mk ![(⟨1e160, 0⟩ : Point Double), ⟨1e160, 1e150⟩, ⟨1e160, -1e150⟩]).area_double
      = Double.nan ∧
    Double.le 0
      (Triangle.mk ![(⟨1e160, 0⟩ : Point Double), ⟨1e160, 1e150⟩, ⟨1e160, -1e150⟩]).area_double
      = false ∧
    (Triangle.mk ![(⟨1e160, 0⟩ : Point Double), ⟨1e160, 1e150⟩,
      ⟨1e160, -1e150⟩]).isRegular_double = true := by
  decide!

/-- C13, amended: in exact arithmetic `area()` is non-negative for every
triangle and, with the real square root, for every figure, of any radius; in
`double` arithmetic `area()` of every figure is NaN or `>= 0`, and `area()` of
a hexagon or octagon whose radius is not NaN is `>= 0`, zero, negative and
infinite radii included. -/
theorem C13_area_nonneg {α : Type} [LinearOrderedField α] :
    ((∀ t : Triangle α, 0 ≤ t.area) ∧
      (∀ f : Figure ℝ, 0 ≤ f.area Real.sqrt) ∧
      (∀ (c : Point ℝ) (r : ℝ), 0 ≤ (Hexagon.mk c r).area Real.sqrt) ∧
      (∀ (c : Point ℝ) (r : ℝ), 0 ≤ (Octagon.mk c r).area Real.sqrt)) ∧
    (∀ f : Figure Double, f.area_double = Double.nan ∨ Double.le 0 f.area_double = true) ∧
    (∀ t : Triangle Double, t.area_double = Double.nan ∨ Double.le 0 t.area_double = true) ∧
    (∀ (c : Point Double) (r : Double), r ≠ Double.nan →
      Double.le 0 (Hexagon.mk c r).area_double = true) ∧
    (∀ (c : Point Double) (r : Double), r ≠ Double.nan →
      Double.le 0 (Octagon.mk c r).area_double = true) := by
  have htri : ∀ t : Triangle Double,
      t.area_double = Double.nan ∨ Double.le 0 t.area_double = true :=
    fun t => Double.abs_nonneg _
  refine ⟨area_nonneg_exact, ?_, htri, hexagon_area_double_nonneg, octagon_area_double_nonneg⟩
  intro f
  cases f with
  | triangle t => exact htri t
  | hexagon h =>
    by_cases hr : h.radius = Double.nan
    · left
      show (3 * Double.sqrt 3.0 / 2.0 : Double) * h.radius * h.radius = Double.nan
      rw [hr, area_double_values.1]
      rfl
    · right
      exact hexagon_area_double_nonneg h.center h.radius hr
  | octagon o =>
    by_cases hr : o.radius = Double.nan
    · left
      show (2 * (1 + Double.sqrt 2) : Double) * (o.radius * Double.sqrt (2 - Double.sqrt 2))
        * (o.radius * Double.sqrt (2 - Double.sqrt 2)) = Double.nan
      rw [hr, area_double_values.2.1, area_double_values.2.2.1]
      rfl
    · right
      exact octagon_area_double_nonneg o.center o.radius hr

/-! ## `Triangle<double>::isRegular` in `double` arithmetic -/

theorem Double.sub_self_finite (m : Int) (e : Nat) :
    Double.finite m e - Double.finite m e = Double.finite 0 0 := by
  show Double.add (Double.finite m e) (Double.neg (Double.finite m e)) = Double.finite 0 0
  simp [Double.add, Double.neg, Double.round]

/-- Two equal finite sides pass the comparison with `epsilon`. -/
theorem Double.lt_abs_sub_self (m : Int) (e : Nat) :
    Double.lt (Double.abs (Double.finite m e - Double.finite m e)) 1e-6 = true := by
  rw [Double.sub_self_finite]
  decide!

/-- Two sides that pass the comparison with `epsilon` are finite. -/
theorem Double.finite_of_lt_abs_sub (a b : Double)
    (h : Double.lt (Double.abs (a - b)) 1e-6 = true) :
    (∃ m e, a = Double.finite m e) ∧ (∃ m e, b = Double.finite m e) := by
  have hsub : a - b = Double.add a (Double.neg b) := rfl
  rw [hsub, Double.values.2.2.2.2.2.2.2.1] at h
  cases a with
  | finite m1 e1 =>
    cases b with
    | finite m2 e2 => exact ⟨⟨m1, e1, rfl⟩, ⟨m2, e2, rfl⟩⟩
    | inf s => simp [Double.add, Double.neg, Double.abs, Double.lt] at h
    | nan => simp [Double.add, Double.neg, Double.abs, Double.lt] at h
  | inf s1 =>
    cases b with
    | finite m2 e2 => simp [Double.add, Double.neg, Double.abs, Double.lt] at h
    | inf s => cases s1 <;> cases s <;> simp [Double.add, Double.neg, Double.abs, Double.lt] at h
    | nan => simp [Double.add, Double.neg, Double.abs, Double.lt] at h
  | nan =>
    cases b <;> simp [Double.add, Double.neg, Double.abs, Double.lt] at h

/-- C8, as stated, fails in `double` arithmetic at the triangle
`(0, 0), (1e200, 0), (0, 1e200)`: the sides `|v0v1|` and `|v2v0|` have the same
length, for every real value of the coordinate, and `isRegular()` in exact
arithmetic accepts; the program computes both sides as `+inf`, which compare
equal, their difference is NaN, and `isRegular()` returns false. -/
theorem C8_triangle_isRegular_counterexample :
    (Triangle.mk ![(⟨0, 0⟩ : Point Double), ⟨1e200, 0⟩, ⟨0, 1e200⟩]).isRegular_double = false ∧
    Point.distance_double (⟨0, 0⟩ : Point Double) ⟨1e200, 0⟩ = Double.inf false ∧
    Point.distance_double (⟨0, 1e200⟩ : Point Double) ⟨0, 0⟩ = Double.inf false ∧
    Double.eq (Point.distance_double (⟨0, 1e200⟩ : Point Double) ⟨0, 0⟩)
      (Point.distance_double (⟨0, 0⟩ : Point Double) ⟨1e200, 0⟩) = true ∧
    Double.abs (Point.distance_double (⟨0, 1e200⟩ : Point Double) ⟨0, 0⟩
      - Point.distance_double (⟨0, 0⟩ : Point Double) ⟨1e200, 0⟩) = Double.nan ∧
    (∀ v : ℝ, |Point.distance Real.sqrt (⟨0, v⟩ : Point ℝ) ⟨0, 0⟩
        - Point.distance Real.sqrt (⟨0, 0⟩ : Point ℝ) ⟨v, 0⟩| < 1e-6) ∧
    (∀ v : ℝ, (Triangle.mk ![(⟨0, 0⟩ : Point ℝ), ⟨v, 0⟩, ⟨0, v⟩]).isRegular Real.sqrt = true) := by
  have hreal : ∀ v : ℝ, |Point.distance Real.sqrt (⟨0, v⟩ : Point ℝ) ⟨0, 0⟩
      - Point.distance Real.sqrt (⟨0, 0⟩ : Point ℝ) ⟨v, 0⟩| < 1e-6 := by
    intro v
    have e : Point.distance Real.sqrt (⟨0, v⟩ : Point ℝ) ⟨0, 0⟩
        = Point.distance Real.sqrt (⟨0, 0⟩ : Point ℝ) ⟨v, 0⟩ := by
      simp only [Point.distance]
      congr 1
      ring
    rw [e, sub_self, abs_zero]
    exact epsilon_pos
  refine ⟨by decide!, by decide!, by decide!, by decide!, by decide!, hreal, ?_⟩
  intro v
  rw [Triangle.isRegular_iff]
  right
  right
  exact hreal v

/-- C8, amended: with `s1`, `s2`, `s3` the side lengths as the program computes
them in `double` arithmetic and `epsilon` the `double` `1e-6`, `isRegular()`
returns true if and only if at least one of `|s1-s2|`, `|s2-s3|`, `|s3-s1|`
compares `<` to `epsilon`; two computed sides that are the same finite number
give true; a pair that passes the comparison is a pair of finite numbers, so a
triangle whose computed sides overflow is rejected.  The triangle
`(0,0), (2,0), (1, sqrt 3)`, with computed sides `2`, `1.9999999999999998`,
`1.9999999999999998`, is accepted, and `(0,0), (2,0), (5,7)`, with computed
sides `2`, `7.615773105863909`, `8.602325267042627`, is rejected. -/
theorem C8_triangle_isRegular (t : Triangle Double) :
    (t.isRegular_double = true ↔
      (Double.lt (Double.abs ((t.vertices 0).distance_double (t.vertices 1)
          - (t.vertices 1).distance_double (t.vertices 2))) 1e-6 = true ∨
       Double.lt (Double.abs ((t.vertices 1).distance_double (t.vertices 2)
          - (t.vertices 2).distance_double (t.vertices 0))) 1e-6 = true ∨
       Double.lt (Double.abs ((t.vertices 2).distance_double (t.vertices 0)
          - (t.vertices 0).distance_double (t.vertices 1))) 1e-6 = true)) ∧
    (∀ (m : Int) (e : Nat),
      ((t.vertices 0).distance_double (t.vertices 1) = Double.finite m e ∧
          (t.vertices 1).distance_double (t.vertices 2) = Double.finite m e) ∨
        ((t.vertices 1).distance_double (t.vertices 2) = Double.finite m e ∧
          (t.vertices 2).distance_double (t.vertices 0) = Double.finite m e) ∨
        ((t.vertices 2).distance_double (t.vertices 0) = Double.finite m e ∧
          (t.vertices 0).distance_double (t.vertices 1) = Double.finite m e) →
      t.isRegular_double = true) ∧
    (t.isRegular_double = true →
      ((∃ m e, (t.vertices 0).distance_double (t.vertices 1) = Double.finite m e) ∧
          ∃ m e, (t.vertices 1).distance_double (t.vertices 2) = Double.finite m e) ∨
        ((∃ m e, (t.vertices 1).distance_double (t.vertices 2) = Double.finite m e) ∧
          ∃ m e, (t.vertices 2).distance_double (t.vertices 0) = Double.finite m e) ∨
        ((∃ m e, (t.vertices 2).distance_double (t.vertices 0) = Double.finite m e) ∧
          ∃ m e, (t.vertices 0).distance_double (t.vertices 1) = Double.finite m e)) ∧
    ((Triangle.mk ![(⟨0, 0⟩ : Point Double), ⟨2, 0⟩, ⟨1, Double.sqrt 3⟩]).isRegular_double = true ∧
      Double.sqrt 3 = 1.7320508075688772 ∧
      Point.distance_double (⟨0, 0⟩ : Point Double) ⟨2, 0⟩ = 2 ∧
      Point.distance_double (⟨2, 0⟩ : Point Double) ⟨1, Double.sqrt 3⟩ = 1.9999999999999998 ∧
      Point.distance_double (⟨1, Double.sqrt 3⟩ : Point Double) ⟨0, 0⟩ = 1.9999999999999998) ∧
    ((Triangle.mk ![(⟨0, 0⟩ : Point Double), ⟨2, 0⟩, ⟨5, 7⟩]).isRegular_double = false ∧
      Point.distance_double (⟨0, 0⟩ : Point Double) ⟨2, 0⟩ = 2 ∧
      Point.distance_double (⟨2, 0⟩ : Point Double) ⟨5, 7⟩ = 7.615773105863909 ∧
      Point.distance_double (⟨5, 7⟩ : Point Double) ⟨0, 0⟩ = 8.602325267042627) := by
  have hiff : t.isRegular_double = true ↔
      (Double.lt (Double.abs ((t.vertices 0).distance_double (t.vertices 1)
          - (t.vertices 1).distance_double (t.vertices 2))) 1e-6 = true ∨
       Double.lt (Double.abs ((t.vertices 1).distance_double (t.vertices 2)
          - (t.vertices 2).distance_double (t.vertices 0))) 1e-6 = true ∨
       Double.lt (Double.abs ((t.vertices 2).distance_double (t.vertices 0)
          - (t.vertices 0).distance_double (t.vertices 1))) 1e-6 = true) := by
    simp only [Triangle.isRegular_double, Bool.or_eq_true]
  refine ⟨hiff, ?_, ?_, by decide!, by decide!⟩
  · intro m e h
    rw [hiff]
    rcases h with ⟨h1, h2⟩ | ⟨h1, h2⟩ | ⟨h1, h2⟩
    · left
      rw [h1, h2]
      exact Double.lt_abs_sub_self m e
    · right
      left
      rw [h1, h2]
      exact Double.lt_abs_sub_self m e
    · right
      right
      rw [h1, h2]
      exact Double.lt_abs_sub_self m e
  · intro h
    rcases hiff.mp h with h | h | h
    · exact Or.inl (Double.finite_of_lt_abs_sub _ _ h)
    · exact Or.inr (Or.inl (Double.finite_of_lt_abs_sub _ _ h))
    · exact Or.inr (Or.inr (Double.finite_of_lt_abs_sub _ _ h))

/-! ## `calculateVertices` in `double` arithmetic -/

theorem hexagon_calculateVertices_double_eq (cos sin : Double → Double) (h : Hexagon Double) :
    h.calculateVertices_double cos sin
      = (List.range 6).map (fun (i : Nat) =>
          (⟨h.center.x + h.radius * cos (2 * Double.M_PI * Double.ofDecimal i false 0 / 6),
            h.center.y + h.radius * sin (2 * Double.M_PI * Double.ofDecimal i false 0 / 6)⟩ :
            Point Double)) := by
  rfl

theorem octagon_calculateVertices_double_eq (cos sin : Double → Double) (o : Octagon Double) :
    o.calculateVertices_double cos sin
      = (List.range 8).map (fun (i : Nat) =>
          (⟨o.center.x + o.radius * cos (2 * Double.M_PI * Double.ofDecimal i false 0 / 8),
            o.center.y + o.radius * sin (2 * Double.M_PI * Double.ofDecimal i false 0 / 8)⟩ :
            Point Double)) := by
  rfl

/-- C20, as stated, fails in `double` arithmetic.  With `cos 0 = 1` and
`sin 0 = 0`, vertex `0` of the hexagon of centre `(0.1, 0)` and radius `0.3` is
`(0.4, 0)`, at the computed distance `0.30000000000000004` from the centre,
not `0.3`; vertex `0` of the hexagon of centre `(1e300, 0)` and radius `1` is
the centre itself, at the distance `0`, not `1`. -/
theorem C20_regular_by_construction_counterexample :
    (∀ (cos sin : Double → Double), cos 0 = 1 → sin 0 = 0 →
      ((Hexagon.mk (⟨0.1, 0⟩ : Point Double) 0.3).calculateVertices_double cos sin)[0]?
        = some ⟨0.4, 0⟩) ∧
    Point.distance_double (⟨0.4, 0⟩ : Point Double) ⟨0.1, 0⟩ = 0.30000000000000004 ∧
    Double.eq (Point.distance_double (⟨0.4, 0⟩ : Point Double) ⟨0.1, 0⟩) (Double.abs 0.3)
      = false ∧
    (∀ (cos sin : Double → Double), cos 0 = 1 → sin 0 = 0 →
      ((Hexagon.mk (⟨1e300, 0⟩ : Point Double) 1).calculateVertices_double cos sin)[0]?
        = some ⟨1e300, 0⟩) ∧
    Point.distance_double (⟨1e300, 0⟩ : Point Double) ⟨1e300, 0⟩ = 0 ∧
    Double.eq (Point.distance_double (⟨1e300, 0⟩ : Point Double) ⟨1e300, 0⟩) (Double.abs 1)
      = false := by
  have hangle : (2 : Double) * Double.M_PI * Double.ofDecimal 0 false 0 / 6 = 0 := by decide!
  refine ⟨?_, by decide!, by decide!, ?_, by decide!, by decide!⟩
  · intro cos sin hcos hsin
    rw [hexagon_calculateVertices_double_eq]
    show some (⟨(0.1 : Double) + 0.3 * cos (2 * Double.M_PI * Double.ofDecimal 0 false 0 / 6),
      (0 : Double) + 0.3 * sin (2 * Double.M_PI * Double.ofDecimal 0 false 0 / 6)⟩ : Point Double)
      = some ⟨0.4, 0⟩
    rw [hangle, hcos, hsin]
    exact congrArg some (by decide!)
  · intro cos sin hcos hsin
    rw [hexagon_calculateVertices_double_eq]
    show some (⟨(1e300 : Double) + 1 * cos (2 * Double.M_PI * Double.ofDecimal 0 false 0 / 6),
      (0 : Double) + 1 * sin (2 * Double.M_PI * Double.ofDecimal 0 false 0 / 6)⟩ : Point Double)
      = some ⟨1e300, 0⟩
    rw [hangle, hcos, hsin]
    exact congrArg some (by decide!)

/-- C20, amended: `calculateVertices` of a hexagon (`n = 6`) or octagon
(`n = 8`) of centre `c` and radius `r` returns exactly `n` points, vertex `i`
being `c + r * (cos(2*M_PI*i/n), sin(2*M_PI*i/n))` evaluated in `double`
arithmetic, for whatever `std::cos` and `std::sin` return.  In exact
arithmetic, with the real `π`, cosine, sine and square root, every vertex is
at the distance `|r|` from `c` and the `n` distances between cyclically
consecutive vertices are equal, to `|r| sqrt(2 - 2 cos(2π/n))`. -/
theorem C20_regular_by_construction (c : Point ℝ) (r : ℝ) (cos sin : Double → Double)
    (h : Hexagon Double) (o : Octagon Double) :
    (((Hexagon.mk c r).calculateVertices Real.pi Real.cos Real.sin
          = (List.range 6).map (regularVertex Real.pi Real.cos Real.sin c r 6) ∧
        ((Hexagon.mk c r).calculateVertices Real.pi Real.cos Real.sin).length = 6 ∧
        (∀ i, i < 6 →
          ((Hexagon.mk c r).calculateVertices Real.pi Real.cos Real.sin)[i]?
            = some ⟨c.x + r * Real.cos (2 * Real.pi * i / 6),
                c.y + r * Real.sin (2 * Real.pi * i / 6)⟩) ∧
        (∀ v ∈ (Hexagon.mk c r).calculateVertices Real.pi Real.cos Real.sin,
          v.distance Real.sqrt c = |r|) ∧
        (∀ i, i < 6 → ∀ v w,
          ((Hexagon.mk c r).calculateVertices Real.pi Real.cos Real.sin)[i]? = some v →
          ((Hexagon.mk c r).calculateVertices Real.pi Real.cos Real.sin)[(i + 1) % 6]? = some w →
          v.distance Real.sqrt w = |r| * Real.sqrt (2 - 2 * Real.cos (2 * Real.pi / 6)))) ∧
      ((Octagon.mk c r).calculateVertices Real.pi Real.cos Real.sin
          = (List.range 8).map (regularVertex Real.pi Real.cos Real.sin c r 8) ∧
        ((Octagon.mk c r).calculateVertices Real.pi Real.cos Real.sin).length = 8 ∧
        (∀ i, i < 8 →
          ((Octagon.mk c r).calculateVertices Real.pi Real.cos Real.sin)[i]?
            = some ⟨c.x + r * Real.cos (2 * Real.pi * i / 8),
                c.y + r * Real.sin (2 * Real.pi * i / 8)⟩) ∧
        (∀ v ∈ (Octagon.mk c r).calculateVertices Real.pi Real.cos Real.sin,
          v.distance Real.sqrt c = |r|) ∧
        (∀ i, i < 8 → ∀ v w,
          ((Octagon.mk c r).calculateVertices Real.pi Real.cos Real.sin)[i]? = some v →
          ((Octagon.mk c r).calculateVertices Real.pi Real.cos Real.sin)[(i + 1) % 8]? = some w →
          v.distance Real.sqrt w = |r| * Real.sqrt (2 - 2 * Real.cos (2 * Real.pi / 8))))) ∧
    ((h.calculateVertices_double cos sin).length = 6 ∧
      ∀ i, i < 6 →
        (h.calculateVertices_double cos sin)[i]?
          = some ⟨h.center.x
                + h.radius * cos (2 * Double.M_PI * Double.ofDecimal i false 0 / 6),
              h.center.y
                + h.radius * sin (2 * Double.M_PI * Double.ofDecimal i false 0 / 6)⟩) ∧
    ((o.calculateVertices_double cos sin).length = 8 ∧
      ∀ i, i < 8 →
        (o.calculateVertices_double cos sin)[i]?
          = some ⟨o.center.x
                + o.radius * cos (2 * Double.M_PI * Double.ofDecimal i false 0 / 8),
              o.center.y
                + o.radius * sin (2 * Double.M_PI * Double.ofDecimal i false 0 / 8)⟩) := by
  refine ⟨regular_by_construction_exact c r, ⟨?_, ?_⟩, ⟨?_, ?_⟩⟩
  · rw [hexagon_calculateVertices_double_eq, List.length_map, List.length_range]
  · intro i hi
    rw [hexagon_calculateVertices_double_eq, List.getElem?_map, List.getElem?_range hi]
    rfl
  · rw [octagon_calculateVertices_double_eq, List.length_map, List.length_range]
  · intro i hi
    rw [octagon_calculateVertices_double_eq, List.getElem?_map, List.getElem?_range hi]
    rfl

end Figures
